import Mathlib

set_option maxRecDepth 100000

/-!
Verification of the kinopticon navigation core: a shallow embedding of the
road-graph builder (`createConnectedRoadNetwork`), the spatial index lookup
(`findNearestNetworkNode`) and the graph-driving state machine
(`startGraphDriving`, `stopGraphDriving`, `updateGraphDriving`,
`handleNodeReached`, `repositionGraphCar`, `positionCameraOnSegment`).

Embedding conventions:
* JavaScript numbers are embedded as exact rationals (ℚ).  `Math.sqrt` is kept
  abstract: every definition that needs it takes a `sqrt : ℚ → ℚ` parameter;
  concrete evaluations instantiate it with `ratSqrt`, which is exact on
  arguments whose value is the square of a rational.
* JavaScript `Map`s are embedded as association lists with `Map.set`/`Map.get`
  semantics (`mapSet` keeps the original position of an overwritten key,
  `mapGet` returns the first binding); iteration order is insertion order,
  matching JS `Map` iteration.
* Template-string identifiers (`node-${id}`, `segment-${wayId}-${i}`) are
  injective constructors on their numeric parts, embedded as the structured id
  types `NodeId` and `SegId`.
* The `nodeIndex` map stores references to the very node objects held in
  `nodes`; reference identity is embedded by storing the `NodeId` key and
  dereferencing through `nodes` at lookup time.
* UI side effects (console logging, notifications, camera mutation, mini-map,
  orbit controls) and the wall-clock field `lastIntersectionTime` are outside
  the navigation data flow and are not part of the state.
* `Math.random()` calls are embedded as oracle parameters `r : ℚ`; callers of
  the theorems instantiate them with values in [0, 1).
-/

/-- 3D vector with rational coordinates (embeds the `Vector3` records). -/
structure Vec3 where
  x : ℚ
  y : ℚ
  z : ℚ
deriving DecidableEq, Repr

/-- Embeds the template-string node identifier "node-${osmNodeId}". -/
inductive NodeId where
  | node : Nat → NodeId
deriving DecidableEq, Repr

/-- Embeds the template-string segment identifier "segment-${way.id}-${i}". -/
structure SegId where
  wayId : Nat
  idx : Nat
deriving DecidableEq, Repr

/-- Embeds the `RoadNode` interface of the road-graph module. -/
structure RoadNode where
  id : NodeId
  position : Vec3
  connectedRoads : List SegId
deriving DecidableEq, Repr

/-- Embeds the `RoadSegment` interface of the road-graph module. -/
structure RoadSegment where
  id : SegId
  startNodeId : NodeId
  endNodeId : NodeId
  points : List Vec3
  width : ℚ
  length : ℚ
  name : Option String
  highway : Option String
  osmWayId : Nat
deriving DecidableEq, Repr

/-- Embeds `ConnectedRoadNetwork`; maps become association lists, and the
spatial index stores node identities (see the header comment). -/
structure ConnectedRoadNetwork where
  nodes : List (NodeId × RoadNode)
  segments : List (SegId × RoadSegment)
  nodeIndex : List ((ℤ × ℤ) × NodeId)
deriving DecidableEq, Repr

section MapOps

variable {α : Type} {β : Type} [DecidableEq α]

/-- JS `Map.get`: the value of the first binding of the key, if any. -/
def mapGet (k : α) : List (α × β) → Option β
  | [] => none
  | (k', v) :: rest => if k' = k then some v else mapGet k rest

/-- JS `Map.set`: overwrite the binding in place, or append a new one. -/
def mapSet (k : α) (v : β) : List (α × β) → List (α × β)
  | [] => [(k, v)]
  | (k', v') :: rest => if k' = k then (k, v) :: rest else (k', v') :: mapSet k v rest

theorem mapGet_mapSet (k k' : α) (v : β) (l : List (α × β)) :
    mapGet k' (mapSet k v l) = if k = k' then some v else mapGet k' l := by
  induction l with
  | nil => by_cases h : k = k' <;> simp [mapGet, mapSet, h]
  | cons p rest ih =>
    obtain ⟨pk, pv⟩ := p
    by_cases h1 : pk = k
    · subst h1
      by_cases h2 : pk = k' <;> simp [mapGet, mapSet, h2]
    · by_cases h2 : pk = k'
      · subst h2
        have hk : k ≠ pk := fun h => h1 h.symm
        simp [mapGet, mapSet, h1, hk]
      · simp [mapGet, mapSet, h1, h2, ih]

theorem mapGet_mapSet_self (k : α) (v : β) (l : List (α × β)) :
    mapGet k (mapSet k v l) = some v := by
  simp [mapGet_mapSet]

theorem mapGet_mapSet_ne (k k' : α) (v : β) (l : List (α × β)) (h : k ≠ k') :
    mapGet k' (mapSet k v l) = mapGet k' l := by
  simp [mapGet_mapSet, h]

theorem mapGet_isSome_mapSet (k k' : α) (v : β) (l : List (α × β))
    (h : (mapGet k' l).isSome) : (mapGet k' (mapSet k v l)).isSome := by
  rw [mapGet_mapSet]
  by_cases hk : k = k' <;> simp [hk, h]

theorem mapGet_mem (k : α) (v : β) (l : List (α × β)) (h : mapGet k l = some v) :
    (k, v) ∈ l := by
  induction l with
  | nil => simp [mapGet] at h
  | cons p rest ih =>
    obtain ⟨pk, pv⟩ := p
    by_cases hk : pk = k
    · subst hk
      simp [mapGet] at h
      simp [h]
    · simp [mapGet, hk] at h
      exact List.mem_cons_of_mem _ (ih h)

/-- JS `Map.values()` in insertion order. -/
def mapValues (l : List (α × β)) : List β := l.map Prod.snd

end MapOps

/-! ## OSM input model (as consumed by the road-graph module) -/

/-- Embeds the tag record fields the road-graph module reads
(`tags?.highway`, `tags?.name`, `tags?.['name:en']`, `tags?.lanes`); `lanes`
is the already-parsed lane count (`parseInt(tags?.lanes || '2')`). -/
structure OSMTags where
  highway : Option String
  name : Option String
  nameEn : Option String
  lanes : Option Nat
deriving DecidableEq, Repr

/-- Embeds `OSMWay` (`{id: number, nodes: number[], tags}`). -/
structure OSMWay where
  id : Nat
  nodes : List Nat
  tags : OSMTags
deriving DecidableEq, Repr

/-- Embeds `OSMNode` (only `lat`/`lon` are read by the graph module). -/
structure OSMNode where
  lat : ℚ
  lon : ℚ
deriving DecidableEq, Repr

/-- Embeds `OSMData` (`ways: OSMWay[]`, `nodes: Map<number, OSMNode>`). -/
structure OSMData where
  ways : List OSMWay
  nodes : List (Nat × OSMNode)
deriving DecidableEq, Repr

/-- Embeds the bounding box argument `{minLat, maxLat, minLon, maxLon}`. -/
structure Bounds where
  minLat : ℚ
  maxLat : ℚ
  minLon : ℚ
  maxLon : ℚ
deriving DecidableEq, Repr

/-- Embeds `TerrainData` as read by the graph module (`heightmap`, `worldSize`). -/
structure TerrainData where
  heightmap : List (List ℚ)
  worldSize : ℚ
deriving DecidableEq, Repr

/-- Concrete square root used to instantiate the abstract `sqrt` parameter in
evaluations; exact whenever the argument is the square of a rational
(all concrete inputs below are chosen that way). -/
def ratSqrt (q : ℚ) : ℚ := (Nat.sqrt (q.num.toNat * q.den) : ℚ) / (q.den : ℚ)

/-! ## Road-graph builder (road-graph module helper functions) -/

/-- The whitelist of drivable `highway` values from `isRoadWay`. -/
def roadTypes : List String :=
  ["primary", "secondary", "tertiary", "residential",
   "unclassified", "service", "trunk", "motorway",
   "primary_link", "secondary_link", "tertiary_link"]

/-- Embeds `isRoadWay`: the way has a `highway` tag in the whitelist. -/
def isRoadWay (w : OSMWay) : Bool :=
  match w.tags.highway with
  | none => false
  | some h => roadTypes.contains h

/-- Base widths keyed by road category (`baseWidths` in `getRoadWidthFromTags`). -/
def baseWidths : List (String × ℚ) :=
  [("motorway", 25), ("trunk", 22), ("primary", 18), ("secondary", 15),
   ("tertiary", 12), ("residential", 10), ("unclassified", 8), ("service", 6)]

/-- Embeds `getRoadWidthFromTags`: `Math.max(6, baseWidth * (lanes / 2))` with
`baseWidth = baseWidths[highway] || 10` and default lane count 2. -/
def getRoadWidthFromTags (tags : OSMTags) : ℚ :=
  let lanes : ℚ := (tags.lanes.getD 2 : Nat)
  let baseWidth : ℚ :=
    match tags.highway with
    | none => 10
    | some h => (mapGet h baseWidths).getD 10
  max 6 (baseWidth * (lanes / 2))

/-- Embeds `interpolateRoadSegment`: `numPoints + 1` evenly spaced points from
`start` to `end` (t = i / numPoints). -/
def interpolateRoadSegment (s e : Vec3) (numPoints : Nat) : List Vec3 :=
  (List.range (numPoints + 1)).map (fun i =>
    let t : ℚ := (i : ℚ) / (numPoints : ℚ)
    ⟨s.x + (e.x - s.x) * t, s.y + (e.y - s.y) * t, s.z + (e.z - s.z) * t⟩)

/-- Embeds `calculatePathLength`: sum of planar (x/z) distances between
consecutive points; `Math.sqrt` is the abstract parameter. -/
def calculatePathLength (sqrt : ℚ → ℚ) (points : List Vec3) : ℚ :=
  ((points.zip points.tail).foldl
    (fun acc pc => acc + sqrt ((pc.2.x - pc.1.x) ^ 2 + (pc.2.z - pc.1.z) ^ 2)) 0)

/-- Embeds `latLonToWorld`: normalize into the bounding box and scale to
`[-worldSize/2, worldSize/2]`; returns the planar pair (x, z). -/
def latLonToWorld (lat lon : ℚ) (bounds : Bounds) (worldSize : ℚ) : ℚ × ℚ :=
  let normX := (lon - bounds.minLon) / (bounds.maxLon - bounds.minLon)
  let normZ := (lat - bounds.minLat) / (bounds.maxLat - bounds.minLat)
  ((normX - 1/2) * worldSize, (normZ - 1/2) * worldSize)

/-- Embeds `sampleTerrainHeight`: floor to a heightmap cell, 0 out of range
(`heightmap[x][z]` with `x`, `z` computed from world coordinates). -/
def sampleTerrainHeight (heightmap : List (List ℚ)) (worldX worldZ worldSize : ℚ) : ℚ :=
  let size : ℤ := heightmap.length
  let x : ℤ := ⌊(worldX + worldSize / 2) / worldSize * (size : ℚ)⌋
  let z : ℤ := ⌊(worldZ + worldSize / 2) / worldSize * (size : ℚ)⌋
  if 0 ≤ x ∧ x < size ∧ 0 ≤ z ∧ z < size then
    ((heightmap.get? x.toNat).getD []).getD z.toNat 0
  else 0

/-- Step 1 of `createConnectedRoadNetwork`: ids referenced by road ways, in JS
`Set` insertion order (first occurrence wins). -/
def roadNodeIdsOf (ways : List OSMWay) : List Nat :=
  ways.foldl
    (fun acc w =>
      if isRoadWay w then
        w.nodes.foldl (fun acc2 nid => if nid ∈ acc2 then acc2 else acc2 ++ [nid]) acc
      else acc)
    []

/-- The `RoadNode` record built for one OSM node id in step 1 (projected
position, terrain height plus a clearance of 3, empty connection list). -/
def mkRoadNode (bounds : Bounds) (terrain : TerrainData) (osmId : Nat) (osmN : OSMNode) :
    RoadNode :=
  let wp := latLonToWorld osmN.lat osmN.lon bounds terrain.worldSize
  { id := NodeId.node osmId
    position := ⟨wp.1, sampleTerrainHeight terrain.heightmap wp.1 wp.2 terrain.worldSize + 3, wp.2⟩
    connectedRoads := [] }

/-- Step 1 of `createConnectedRoadNetwork`: build the node map and the spatial
index (cell = rounded planar position; `Map.set` keeps one node per cell). -/
def buildRoadNodes (data : OSMData) (bounds : Bounds) (terrain : TerrainData) :
    List (NodeId × RoadNode) × List ((ℤ × ℤ) × NodeId) :=
  (roadNodeIdsOf data.ways).foldl
    (fun acc osmId =>
      match mapGet osmId data.nodes with
      | none => acc
      | some osmN =>
        let rn := mkRoadNode bounds terrain osmId osmN
        (mapSet rn.id rn acc.1,
         mapSet (round rn.position.x, round rn.position.z) rn.id acc.2))
    ([], [])

/-- Intermediate state of step 2 (the node and segment maps). -/
structure BuildSt where
  nodes : List (NodeId × RoadNode)
  segments : List (SegId × RoadSegment)
deriving DecidableEq, Repr

/-- The `RoadSegment` record built for consecutive way nodes `a`, `b` in
step 2: 5 interpolated intermediate points, summed planar length clamped to a
minimum of 1. -/
def mkSegment (sqrt : ℚ → ℚ) (w : OSMWay) (i : Nat) (a b : Nat) (sn en : RoadNode) :
    RoadSegment :=
  let pts := interpolateRoadSegment sn.position en.position 5
  { id := ⟨w.id, i⟩
    startNodeId := NodeId.node a
    endNodeId := NodeId.node b
    points := pts
    width := getRoadWidthFromTags w.tags
    length := max (calculatePathLength sqrt pts) 1
    name := match w.tags.name with | some n => some n | none => w.tags.nameEn
    highway := w.tags.highway
    osmWayId := w.id }

/-- One iteration of the inner loop of step 2: look both endpoint nodes up,
create the segment and push its id onto both endpoints' `connectedRoads`.
In the source the two pushes mutate node objects; when `a = b` both pushes hit
the same object, which the functional embedding renders as a double append. -/
def stepPair (sqrt : ℚ → ℚ) (w : OSMWay) (st : BuildSt) (pr : Nat × Nat × Nat) : BuildSt :=
  let i := pr.1
  let a := pr.2.1
  let b := pr.2.2
  match mapGet (NodeId.node a) st.nodes, mapGet (NodeId.node b) st.nodes with
  | some sn, some en =>
    let sid : SegId := ⟨w.id, i⟩
    let seg := mkSegment sqrt w i a b sn en
    let nodes' :=
      if a = b then
        mapSet (NodeId.node a)
          { sn with connectedRoads := sn.connectedRoads ++ [sid, sid] } st.nodes
      else
        mapSet (NodeId.node b) { en with connectedRoads := en.connectedRoads ++ [sid] }
          (mapSet (NodeId.node a) { sn with connectedRoads := sn.connectedRoads ++ [sid] }
            st.nodes)
    ⟨nodes', mapSet sid seg st.segments⟩
  | _, _ => st

/-- The indexed consecutive pairs `(i, nodes[i], nodes[i+1])` of a way. -/
def wayPairs (w : OSMWay) : List (Nat × Nat × Nat) :=
  (w.nodes.zip w.nodes.tail).enum

/-- Step 2 for one way: skipped unless it is a road way with at least 2 nodes. -/
def processWay (sqrt : ℚ → ℚ) (st : BuildSt) (w : OSMWay) : BuildSt :=
  if isRoadWay w = true ∧ 2 ≤ w.nodes.length then
    (wayPairs w).foldl (stepPair sqrt w) st
  else st

/-- Embeds `createConnectedRoadNetwork`: step 1 builds nodes and the spatial
index, step 2 folds every way into the node/segment maps. -/
def createConnectedRoadNetwork (sqrt : ℚ → ℚ) (data : OSMData) (bounds : Bounds)
    (terrain : TerrainData) : ConnectedRoadNetwork :=
  let built := buildRoadNodes data bounds terrain
  let final := data.ways.foldl (processWay sqrt) ⟨built.1, []⟩
  ⟨final.nodes, final.segments, built.2⟩

/-! ## Spatial index lookup (`findNearestNetworkNode`) -/

/-- Squared planar (x/z) distance; `findNearestNetworkNode` and
`calculatePathLength` apply `sqrt` to exactly this quantity. -/
def planarDistSq (a b : Vec3) : ℚ := (a.x - b.x) ^ 2 + (a.z - b.z) ^ 2

/-- The candidate update step shared by the grid phase and the brute-force
phase: keep the node if its distance improves on the minimum so far. -/
def nearestUpd (sqrt : ℚ → ℚ) (pos : Vec3) (acc : Option RoadNode × ℚ) (node : RoadNode) :
    Option RoadNode × ℚ :=
  let distance := sqrt (planarDistSq pos node.position)
  if distance < acc.2 then (some node, distance) else acc

/-- The cell offsets `-searchRadius .. searchRadius` of the grid loops; empty
when the radius is negative (the JS for-loop body never runs then). -/
def cellOffsets (searchRadius : ℤ) : List ℤ :=
  (List.range (2 * searchRadius + 1).toNat).map (fun i => -searchRadius + (i : ℤ))

/-- One grid cell visit of the search loop: look the cell up in the spatial
index, dereference the hit through the node map (embedding the shared object
reference) and update the running minimum. -/
def nearestCell (sqrt : ℚ → ℚ) (position : Vec3) (network : ConnectedRoadNetwork)
    (acc : Option RoadNode × ℚ) (key : ℤ × ℤ) : Option RoadNode × ℚ :=
  match (mapGet key network.nodeIndex).bind (fun nid => mapGet nid network.nodes) with
  | none => acc
  | some node => nearestUpd sqrt position acc node

/-- Embeds `findNearestNetworkNode`: a square grid search over
`ceil(maxDistance / 10)` cell offsets, followed by a brute-force scan over all
nodes when the grid phase found nothing.  The running minimum starts at
`maxDistance`. -/
def findNearestNetworkNode (sqrt : ℚ → ℚ) (position : Vec3)
    (network : ConnectedRoadNetwork) (maxDistance : ℚ) : Option RoadNode :=
  let searchRadius : ℤ := ⌈maxDistance / 10⌉
  let offs := cellOffsets searchRadius
  let acc1 := offs.foldl
    (fun accDx dx =>
      offs.foldl
        (fun acc dz =>
          nearestCell sqrt position network acc
            (round position.x + dx, round position.z + dz))
        accDx)
    ((none : Option RoadNode), maxDistance)
  let acc2 :=
    if acc1.1.isNone then
      network.nodes.foldl (fun acc p => nearestUpd sqrt position acc p.2) acc1
    else acc1
  acc2.1

/-! ## Graph-driving state machine -/

/-- Embeds `GraphDrivingState` (navigation fields; the segment reference is
embedded by value since the network is immutable after construction). -/
structure GraphDrivingState where
  isActive : Bool
  speed : ℚ
  network : Option ConnectedRoadNetwork
  currentSegment : Option RoadSegment
  currentSegmentId : Option SegId
  segmentProgress : ℚ
  direction : ℚ
  targetNodeId : Option NodeId
  lastNodeId : Option NodeId
deriving DecidableEq, Repr

/-- Embeds `createGraphDrivingState` (the initial inactive state). -/
def createGraphDrivingState : GraphDrivingState :=
  { isActive := false, speed := 20, network := none, currentSegment := none,
    currentSegmentId := none, segmentProgress := 0, direction := 1,
    targetNodeId := none, lastNodeId := none }

/-- Embeds `stopGraphDriving`: deactivate and release the network and current
segment references; the remaining navigation fields are untouched. -/
def stopGraphDriving (s : GraphDrivingState) : GraphDrivingState :=
  { s with isActive := false, network := none, currentSegment := none,
           currentSegmentId := none }

/-- Outcome tag for `startGraphDriving` (which signals failures through
notifications and early returns). -/
inductive StartOutcome where
  | toggledOff
  | emptyNetwork
  | noReachableRoad
  | noConnectedRoads
  | invalidSegment
  | started
deriving DecidableEq, Repr

/-- The nearest-node search of `startGraphDriving` with its successively
larger radii 100, 300, 1000 (lines 974-982). -/
def nearestWithRetries (sqrt : ℚ → ℚ) (cameraPos : Vec3)
    (network : ConnectedRoadNetwork) : Option RoadNode :=
  match findNearestNetworkNode sqrt cameraPos network 100 with
  | some n => some n
  | none =>
    match findNearestNetworkNode sqrt cameraPos network 300 with
    | some n => some n
    | none => findNearestNetworkNode sqrt cameraPos network 1000

/-- Embeds `startGraphDriving`.  An active machine is stopped instead
(lines 952-955); an empty network fails before any state is touched
(lines 957-961); then `drivingState.network` is set (line 966), the nearest
node search runs with radii 100, 300, 1000, and on success the initial
segment, direction and target are installed with progress 0. -/
def startGraphDriving (sqrt : ℚ → ℚ) (s : GraphDrivingState) (cameraPos : Vec3)
    (network : ConnectedRoadNetwork) : GraphDrivingState × StartOutcome :=
  if s.isActive then (stopGraphDriving s, .toggledOff)
  else if network.segments.isEmpty then (s, .emptyNetwork)
  else
    let s1 := { s with network := some network }
    match nearestWithRetries sqrt cameraPos network with
    | none => (s1, .noReachableRoad)
    | some nearestNode =>
      if nearestNode.connectedRoads.isEmpty then (s1, .noConnectedRoads)
      else
        match nearestNode.connectedRoads.head? with
        | none => (s1, .noConnectedRoads)
        | some firstSegmentId =>
          match mapGet firstSegmentId network.segments with
          | none => (s1, .invalidSegment)
          | some firstSegment =>
            let fwd := firstSegment.startNodeId = nearestNode.id
            ({ s1 with
                isActive := true
                currentSegment := some firstSegment
                currentSegmentId := some firstSegmentId
                direction := if fwd then 1 else -1
                targetNodeId :=
                  some (if fwd then firstSegment.endNodeId else firstSegment.startNodeId)
                lastNodeId :=
                  some (if fwd then firstSegment.startNodeId else firstSegment.endNodeId)
                segmentProgress := 0 }, .started)

/-- Embeds the candidate computation in `handleNodeReached`: the target node's
connected roads minus the current segment, resolved through the segment map
(unresolvable ids are dropped by the `!== undefined` filter). -/
def possibleSegmentsAt (currentSegmentId : Option SegId) (tnode : RoadNode)
    (network : ConnectedRoadNetwork) : List RoadSegment :=
  (tnode.connectedRoads.filter (fun sid => ¬ some sid = currentSegmentId)).filterMap
    (fun sid => mapGet sid network.segments)

/-- Embeds `handleNodeReached` (`r` stands for the `Math.random()` draw of the
next-segment choice).  Dead end: flip direction, clamp progress to the
complementary boundary, swap target and last node.  Intersection: install the
chosen segment with progress 0.  The guard failures return the state
unchanged; an out-of-range oracle (impossible for `r` in [0,1)) also returns
the state unchanged. -/
def handleNodeReached (r : ℚ) (s : GraphDrivingState) : GraphDrivingState :=
  match s.network, s.targetNodeId with
  | some network, some targetNodeId =>
    match mapGet targetNodeId network.nodes with
    | none => s
    | some targetNode =>
      let possible := possibleSegmentsAt s.currentSegmentId targetNode network
      if possible.isEmpty then
        { s with
            direction := s.direction * (-1)
            segmentProgress := max 0 (min 1 (1 - s.segmentProgress))
            targetNodeId := s.lastNodeId
            lastNodeId := s.targetNodeId }
      else
        match possible.get? (⌊r * (possible.length : ℚ)⌋).toNat with
        | none => s
        | some nextSegment =>
          let fwd := nextSegment.startNodeId = targetNodeId
          { s with
              currentSegment := some nextSegment
              currentSegmentId := some nextSegment.id
              lastNodeId := s.targetNodeId
              targetNodeId :=
                some (if fwd then nextSegment.endNodeId else nextSegment.startNodeId)
              direction := if fwd then 1 else -1
              segmentProgress := 0 }
  | _, _ => s

/-- Embeds `updateGraphDriving`: advance progress by
`(speed * 1000 / 3600) / length * deltaTime * direction` and route to
`handleNodeReached` when the result leaves the open interval (0, 1).  The
returned flag records whether the node-transition branch ran. -/
def updateGraphDriving (r : ℚ) (s : GraphDrivingState) (deltaTime : ℚ) :
    GraphDrivingState × Bool :=
  match s.isActive, s.currentSegment, s.network with
  | true, some currentSegment, some _ =>
    let speedUnitsPerSecond := s.speed * 1000 / 3600
    let progressPerSecond := speedUnitsPerSecond / currentSegment.length
    let deltaProgress := progressPerSecond * deltaTime * s.direction
    let p' := s.segmentProgress + deltaProgress
    if 1 ≤ p' ∨ p' ≤ 0 then
      (handleNodeReached r { s with segmentProgress := p' }, true)
    else
      ({ s with segmentProgress := p' }, false)
  | _, _, _ => (s, false)

/-- Outcome tag for `repositionGraphCar`. -/
inductive RepositionOutcome where
  | notDriving
  | noValidSegment
  | repositioned
deriving DecidableEq, Repr

/-- Embeds the `validSegments` filter of `repositionGraphCar`: segments whose
two endpoint nodes resolve and at least one of them has more than one
connected road (the source combines the two counts with `||`). -/
def validRepositionSegments (network : ConnectedRoadNetwork) : List RoadSegment :=
  (mapValues network.segments).filter
    (fun segment =>
      match mapGet segment.startNodeId network.nodes,
            mapGet segment.endNodeId network.nodes with
      | some startNode, some endNode =>
        decide (1 < startNode.connectedRoads.length)
          || decide (1 < endNode.connectedRoads.length)
      | _, _ => false)

/-- Embeds `repositionGraphCar` (`rSeg`, `rDir`, `rProg` stand for the three
`Math.random()` draws: segment index, direction sign and progress in the first
half of the segment). -/
def repositionGraphCar (rSeg rDir rProg : ℚ) (s : GraphDrivingState) :
    GraphDrivingState × RepositionOutcome :=
  match s.isActive, s.network with
  | true, some network =>
    let validSegments := validRepositionSegments network
    if validSegments.isEmpty then (s, .noValidSegment)
    else
      match validSegments.get? (⌊rSeg * (validSegments.length : ℚ)⌋).toNat with
      | none => (s, .noValidSegment)
      | some randomSegment =>
        let randomDirection : ℚ := if rDir < 1/2 then 1 else -1
        ({ s with
            currentSegment := some randomSegment
            currentSegmentId := some randomSegment.id
            direction := randomDirection
            segmentProgress := rProg * (1/2)
            targetNodeId :=
              some (if randomDirection = 1 then randomSegment.endNodeId
                    else randomSegment.startNodeId)
            lastNodeId :=
              some (if randomDirection = 1 then randomSegment.startNodeId
                    else randomSegment.endNodeId) }, .repositioned)
  | _, _ => (s, .notDriving)

/-- Embeds the position computation of `positionCameraOnSegment`: resolve the
effective progress (flipped for direction −1), bracket the polyline pair,
interpolate linearly, and add the camera height 1.8.  `none` embeds the paths
where the source reads no valid pair (fewer than 2 points, or an index outside
the array, which in JS would yield `undefined`). -/
def samplePosition (s : GraphDrivingState) : Option Vec3 :=
  match s.currentSegment with
  | none => none
  | some segment =>
    let points := segment.points
    if points.length < 2 then none
    else
      let progress := if s.direction = -1 then 1 - s.segmentProgress else s.segmentProgress
      let n := points.length
      let segmentIndex : ℤ := min ⌊progress * ((n : ℚ) - 1)⌋ ((n : ℤ) - 2)
      if segmentIndex < 0 then none
      else
        match points.get? segmentIndex.toNat, points.get? (segmentIndex.toNat + 1) with
        | some currentPoint, some nextPoint =>
          let localProgress := progress * ((n : ℚ) - 1) - (segmentIndex : ℚ)
          some ⟨currentPoint.x + (nextPoint.x - currentPoint.x) * localProgress,
                currentPoint.y + (nextPoint.y - currentPoint.y) * localProgress + 9/5,
                currentPoint.z + (nextPoint.z - currentPoint.z) * localProgress⟩
        | _, _ => none

/-! ## Claim C9: start on an empty network -/

/-- C9: for every Network with zero segments and every seed position, calling
start on an inactive machine fails with the empty-network error and the state
is returned entirely unmodified (in particular it stays inactive and no
navigation field changes). -/
theorem C9_start_empty_network_fails (sqrt : ℚ → ℚ) (s : GraphDrivingState)
    (pos : Vec3) (net : ConnectedRoadNetwork) (hA : s.isActive = false)
    (hE : net.segments = []) :
    startGraphDriving sqrt s pos net = (s, StartOutcome.emptyNetwork) := by
  simp [startGraphDriving, hA, hE]

/-- Witness for C9 at a concrete inactive state and the empty network. -/
theorem C9_start_empty_network_fails_witness :
    startGraphDriving ratSqrt createGraphDrivingState ⟨0, 0, 0⟩ ⟨[], [], []⟩
      = (createGraphDrivingState, StartOutcome.emptyNetwork) :=
  C9_start_empty_network_fails ratSqrt createGraphDrivingState ⟨0, 0, 0⟩ ⟨[], [], []⟩
    rfl rfl

/-! ## Claim C10: start while already active toggles off -/

/-- C10: for every network argument, calling start while the machine is active
does not initialize traversal; it performs a stop — deactivating and clearing
the network and current-segment references, leaving the remaining navigation
fields untouched — and returns with the toggled-off outcome. -/
theorem C10_start_while_active_stops (sqrt : ℚ → ℚ) (s : GraphDrivingState)
    (pos : Vec3) (net : ConnectedRoadNetwork) (hA : s.isActive = true) :
    startGraphDriving sqrt s pos net = (stopGraphDriving s, StartOutcome.toggledOff)
      ∧ stopGraphDriving s =
        { s with isActive := false, network := none, currentSegment := none,
                 currentSegmentId := none } := by
  constructor
  · simp [startGraphDriving, hA]
  · rfl

/-- Witness for C10 at a concrete active state. -/
theorem C10_start_while_active_stops_witness :
    startGraphDriving ratSqrt { createGraphDrivingState with isActive := true } ⟨0, 0, 0⟩
        ⟨[], [], []⟩
      = (stopGraphDriving { createGraphDrivingState with isActive := true },
         StartOutcome.toggledOff) :=
  (C10_start_while_active_stops ratSqrt { createGraphDrivingState with isActive := true }
    ⟨0, 0, 0⟩ ⟨[], [], []⟩ rfl).1

/-! ## Claim C7: the tick progress update -/

/-- C7: in the traversing state a tick adds exactly
`(speed * 1000 / 3600) / segment.length * deltaTime * direction` to the
progress, and when the result stays strictly inside (0, 1) the node-transition
branch does not run and every other field (segment, direction, origin node,
target node, speed, active flag) is unchanged. -/
theorem C7_tick_progress_exact (r : ℚ) (s : GraphDrivingState) (deltaTime : ℚ)
    (seg : RoadSegment) (net : ConnectedRoadNetwork)
    (hA : s.isActive = true) (hSeg : s.currentSegment = some seg)
    (hNet : s.network = some net)
    (h0 : 0 < s.segmentProgress + s.speed * 1000 / 3600 / seg.length * deltaTime * s.direction)
    (h1 : s.segmentProgress + s.speed * 1000 / 3600 / seg.length * deltaTime * s.direction < 1) :
    updateGraphDriving r s deltaTime =
      ({ s with segmentProgress :=
           s.segmentProgress + s.speed * 1000 / 3600 / seg.length * deltaTime * s.direction },
       false) := by
  have hcond : ¬ (1 ≤ s.segmentProgress +
      s.speed * 1000 / 3600 / seg.length * deltaTime * s.direction ∨
      s.segmentProgress + s.speed * 1000 / 3600 / seg.length * deltaTime * s.direction ≤ 0) := by
    push_neg
    exact ⟨h1, h0⟩
  simp only [updateGraphDriving, hA, hSeg, hNet]
  simp [hcond]

/-- Witness for C7: a 10-unit segment at 36 km/h, half-second tick, from
progress 0 to progress 1/2 with no transition. -/
theorem C7_tick_progress_exact_witness :
    updateGraphDriving 0
        { isActive := true, speed := 36,
          network := some ⟨[], [(⟨5, 0⟩, ⟨⟨5, 0⟩, .node 1, .node 2,
            [⟨0, 0, 0⟩, ⟨10, 0, 0⟩], 10, 10, none, none, 5⟩)], []⟩,
          currentSegment := some ⟨⟨5, 0⟩, .node 1, .node 2,
            [⟨0, 0, 0⟩, ⟨10, 0, 0⟩], 10, 10, none, none, 5⟩,
          currentSegmentId := some ⟨5, 0⟩, segmentProgress := 0, direction := 1,
          targetNodeId := some (.node 2), lastNodeId := some (.node 1) } (1/2)
      = ({ isActive := true, speed := 36,
           network := some ⟨[], [(⟨5, 0⟩, ⟨⟨5, 0⟩, .node 1, .node 2,
             [⟨0, 0, 0⟩, ⟨10, 0, 0⟩], 10, 10, none, none, 5⟩)], []⟩,
           currentSegment := some ⟨⟨5, 0⟩, .node 1, .node 2,
             [⟨0, 0, 0⟩, ⟨10, 0, 0⟩], 10, 10, none, none, 5⟩,
           currentSegmentId := some ⟨5, 0⟩, segmentProgress := 1/2, direction := 1,
           targetNodeId := some (.node 2), lastNodeId := some (.node 1) },
         false) := by
  have h := C7_tick_progress_exact 0
    { isActive := true, speed := 36,
      network := some ⟨[], [(⟨5, 0⟩, ⟨⟨5, 0⟩, .node 1, .node 2,
        [⟨0, 0, 0⟩, ⟨10, 0, 0⟩], 10, 10, none, none, 5⟩)], []⟩,
      currentSegment := some ⟨⟨5, 0⟩, .node 1, .node 2,
        [⟨0, 0, 0⟩, ⟨10, 0, 0⟩], 10, 10, none, none, 5⟩,
      currentSegmentId := some ⟨5, 0⟩, segmentProgress := 0, direction := 1,
      targetNodeId := some (.node 2), lastNodeId := some (.node 1) } (1/2)
    ⟨⟨5, 0⟩, .node 1, .node 2, [⟨0, 0, 0⟩, ⟨10, 0, 0⟩], 10, 10, none, none, 5⟩
    ⟨[], [(⟨5, 0⟩, ⟨⟨5, 0⟩, .node 1, .node 2,
      [⟨0, 0, 0⟩, ⟨10, 0, 0⟩], 10, 10, none, none, 5⟩)], []⟩
    rfl rfl rfl (by norm_num) (by norm_num)
  rw [h]
  norm_num

/-! ## Builder fixtures and fold machinery -/

/-- Generic fold-invariant preservation lemma used for the builder proofs. -/
theorem foldl_inv {σ α : Type _} {l : List α} {f : σ → α → σ} {P : σ → Prop}
    (h : ∀ st a, a ∈ l → P st → P (f st a)) :
    ∀ st, P st → P (l.foldl f st) := by
  induction l with
  | nil => intro st hst; simpa using hst
  | cons a rest ih =>
    intro st hst
    simp only [List.foldl_cons]
    exact ih (fun st' a' ha' => h st' a' (List.mem_cons_of_mem a ha'))
      (f st a) (h st a (List.mem_cons_self a rest) hst)

/-- A unit bounding box, used by the concrete builder inputs. -/
def kBounds : Bounds := ⟨0, 1, 0, 1⟩

/-- A flat one-cell heightmap over a 100-unit world. -/
def kTerrain : TerrainData := ⟨[[0]], 100⟩

/-- Residential road tags (passes the `isRoadWay` whitelist). -/
def kResidentialTags : OSMTags := ⟨some "residential", none, none, none⟩

/-! ## Claim C4: orphan nodes in the built network -/

/-- C4 (failing input): a single road way with one point.  Step 1 of
`createConnectedRoadNetwork` registers its node unconditionally, step 2 then
skips the way (fewer than 2 points), so the built Network contains a Node with
an empty `connectedRoads` list even though it contains no Segments — contrary
to the stated invariant that a Node with zero connected segments is never
inserted. -/
theorem C4_orphan_node_code_bug :
    (createConnectedRoadNetwork ratSqrt ⟨[⟨0, [1], kResidentialTags⟩], [(1, ⟨1/2, 1/2⟩)]⟩
        kBounds kTerrain).segments = []
      ∧ mapGet (NodeId.node 1)
          (createConnectedRoadNetwork ratSqrt ⟨[⟨0, [1], kResidentialTags⟩],
            [(1, ⟨1/2, 1/2⟩)]⟩ kBounds kTerrain).nodes
        = some ⟨NodeId.node 1, ⟨0, 3, 0⟩, []⟩ := by
  constructor <;> with_unfolding_all decide

/-! ## Claim C5: degenerate geometry during build -/

/-- C5 (counterexample): a road way whose two consecutive points are the same
OSM node produces a Segment whose `startNodeId` equals its `endNodeId` (and
whose endpoint positions coincide); such segments are not rejected — their
length is clamped to the minimum 1 instead. -/
theorem C5_self_loop_segment_counterexample :
    (mapGet (SegId.mk 0 0)
        (createConnectedRoadNetwork ratSqrt ⟨[⟨0, [1, 1], kResidentialTags⟩],
          [(1, ⟨1/2, 1/2⟩)]⟩ kBounds kTerrain).segments).map
      (fun seg => (seg.startNodeId, seg.endNodeId, seg.length))
      = some (NodeId.node 1, NodeId.node 1, 1) := by
  with_unfolding_all decide

/-- Provenance invariant for the segment map of a build state: every segment
has length at least 1 and stems from a road way with at least 2 points. -/
def SegProvenance (ways : List OSMWay) (st : BuildSt) : Prop :=
  ∀ sid seg, mapGet sid st.segments = some seg →
    1 ≤ seg.length ∧
    ∃ w, w ∈ ways ∧ w.id = sid.wayId ∧ isRoadWay w = true ∧ 2 ≤ w.nodes.length

/-- `stepPair` is the identity when either endpoint node is missing. -/
theorem stepPair_none (sqrt : ℚ → ℚ) (w : OSMWay) (st : BuildSt) (pr : Nat × Nat × Nat)
    (h : mapGet (NodeId.node pr.2.1) st.nodes = none ∨
         mapGet (NodeId.node pr.2.2) st.nodes = none) :
    stepPair sqrt w st pr = st := by
  rcases h with h | h
  · simp [stepPair, h]
  · cases h1 : mapGet (NodeId.node pr.2.1) st.nodes <;> simp [stepPair, h1, h]

/-- Explicit form of `stepPair` when both endpoint nodes resolve. -/
theorem stepPair_some (sqrt : ℚ → ℚ) (w : OSMWay) (st : BuildSt) (pr : Nat × Nat × Nat)
    (sn en : RoadNode) (h1 : mapGet (NodeId.node pr.2.1) st.nodes = some sn)
    (h2 : mapGet (NodeId.node pr.2.2) st.nodes = some en) :
    stepPair sqrt w st pr =
      ⟨(if pr.2.1 = pr.2.2 then
          mapSet (NodeId.node pr.2.1)
            { sn with connectedRoads :=
                sn.connectedRoads ++ [⟨w.id, pr.1⟩, ⟨w.id, pr.1⟩] } st.nodes
        else
          mapSet (NodeId.node pr.2.2)
            { en with connectedRoads := en.connectedRoads ++ [⟨w.id, pr.1⟩] }
            (mapSet (NodeId.node pr.2.1)
              { sn with connectedRoads := sn.connectedRoads ++ [⟨w.id, pr.1⟩] }
              st.nodes)),
       mapSet ⟨w.id, pr.1⟩ (mkSegment sqrt w pr.1 pr.2.1 pr.2.2 sn en) st.segments⟩ := by
  simp [stepPair, h1, h2]

theorem stepPair_provenance {ways : List OSMWay} {w : OSMWay} (sqrt : ℚ → ℚ)
    (hw : w ∈ ways) (hroad : isRoadWay w = true) (hlen : 2 ≤ w.nodes.length)
    (st : BuildSt) (pr : Nat × Nat × Nat) (hst : SegProvenance ways st) :
    SegProvenance ways (stepPair sqrt w st pr) := by
  cases h1 : mapGet (NodeId.node pr.2.1) st.nodes with
  | none => rw [stepPair_none sqrt w st pr (Or.inl h1)]; exact hst
  | some sn =>
    cases h2 : mapGet (NodeId.node pr.2.2) st.nodes with
    | none => rw [stepPair_none sqrt w st pr (Or.inr h2)]; exact hst
    | some en =>
      rw [stepPair_some sqrt w st pr sn en h1 h2]
      intro sid seg hget
      simp only at hget
      rw [mapGet_mapSet] at hget
      by_cases hsid : (⟨w.id, pr.1⟩ : SegId) = sid
      · rw [if_pos hsid] at hget
        refine ⟨?_, w, hw, ?_, hroad, hlen⟩
        · cases hget
          exact le_max_right _ _
        · cases hget
          simp [← hsid, mkSegment]
      · rw [if_neg hsid] at hget
        exact hst sid seg hget

theorem processWay_provenance {ways : List OSMWay} (sqrt : ℚ → ℚ)
    (st : BuildSt) (w : OSMWay) (hw : w ∈ ways) (hst : SegProvenance ways st) :
    SegProvenance ways (processWay sqrt st w) := by
  unfold processWay
  by_cases hc : isRoadWay w = true ∧ 2 ≤ w.nodes.length
  · rw [if_pos hc]
    exact foldl_inv
      (fun st' pr _ hst' => stepPair_provenance sqrt hw hc.1 hc.2 st' pr hst') st hst
  · rw [if_neg hc]
    exact hst

/-- C5 (amended): the build never fails; ways with fewer than 2 points produce
no Segments — every Segment of the built Network stems from a road way with at
least 2 points — and every Segment's length is clamped to at least 1; but
Segments whose two endpoints coincide (even `startNode = endNode`) are NOT
rejected. -/
theorem C5_degenerate_ways_amended (sqrt : ℚ → ℚ) (data : OSMData) (bounds : Bounds)
    (terrain : TerrainData) :
    ∀ sid seg,
      mapGet sid (createConnectedRoadNetwork sqrt data bounds terrain).segments = some seg →
      1 ≤ seg.length ∧
      ∃ w, w ∈ data.ways ∧ w.id = sid.wayId ∧ isRoadWay w = true ∧ 2 ≤ w.nodes.length := by
  have base : SegProvenance data.ways ⟨(buildRoadNodes data bounds terrain).1, []⟩ := by
    intro sid seg hget
    simp [mapGet] at hget
  have final := foldl_inv
    (fun st w hw hst => processWay_provenance sqrt st w hw hst) _ base
  intro sid seg hget
  exact final sid seg hget

/-- Witness for C5 (amended) at the self-loop input: its single segment has
length 1 and stems from the two-point residential way. -/
theorem C5_degenerate_ways_amended_witness :
    1 ≤ (1 : ℚ) ∧
    ∃ w, w ∈ [(⟨0, [1, 1], kResidentialTags⟩ : OSMWay)] ∧ w.id = (SegId.mk 0 0).wayId ∧
      isRoadWay w = true ∧ 2 ≤ w.nodes.length := by
  have h := C5_degenerate_ways_amended ratSqrt ⟨[⟨0, [1, 1], kResidentialTags⟩],
    [(1, ⟨1/2, 1/2⟩)]⟩ kBounds kTerrain (SegId.mk 0 0)
    ⟨⟨0, 0⟩, NodeId.node 1, NodeId.node 1,
      interpolateRoadSegment ⟨0, 3, 0⟩ ⟨0, 3, 0⟩ 5, 10, 1, none, some "residential", 0⟩
    (by with_unfolding_all decide)
  exact ⟨h.1, h.2⟩

/-! ## Claim C3: graph cross-reference consistency -/

/-- Both endpoints of every segment in the map are keys of the node map. -/
def EndsOk (st : BuildSt) : Prop :=
  ∀ sid seg, mapGet sid st.segments = some seg →
    (mapGet seg.startNodeId st.nodes).isSome ∧ (mapGet seg.endNodeId st.nodes).isSome

/-- Every `connectedRoads` entry of every node resolves to a segment that
lists that node as an endpoint. -/
def ConnOk (st : BuildSt) : Prop :=
  ∀ nid nd, mapGet nid st.nodes = some nd →
    ∀ sid ∈ nd.connectedRoads,
      ∃ seg, mapGet sid st.segments = some seg ∧
        (seg.startNodeId = nid ∨ seg.endNodeId = nid)

/-- All keys of the segment map satisfy the predicate (freshness bookkeeping). -/
def SegKeysBound (st : BuildSt) (P : SegId → Prop) : Prop :=
  ∀ sid seg, mapGet sid st.segments = some seg → P sid

theorem SegKeysBound.mono {st : BuildSt} {P Q : SegId → Prop}
    (hPQ : ∀ sid, P sid → Q sid) (h : SegKeysBound st P) : SegKeysBound st Q :=
  fun sid seg hget => hPQ sid (h sid seg hget)

/-- Core preservation lemma: one `stepPair` with a fresh segment id keeps the
consistency invariants and only adds the fresh id to the segment keys. -/
theorem stepPair_inv (sqrt : ℚ → ℚ) (w : OSMWay) (st : BuildSt) (pr : Nat × Nat × Nat)
    (P : SegId → Prop) (hP : SegKeysBound st P) (hfresh : ¬ P ⟨w.id, pr.1⟩)
    (hconn : ConnOk st) (hends : EndsOk st) :
    ConnOk (stepPair sqrt w st pr) ∧ EndsOk (stepPair sqrt w st pr) ∧
      SegKeysBound (stepPair sqrt w st pr) (fun sid => P sid ∨ sid = ⟨w.id, pr.1⟩) := by
  cases h1 : mapGet (NodeId.node pr.2.1) st.nodes with
  | none =>
    rw [stepPair_none sqrt w st pr (Or.inl h1)]
    exact ⟨hconn, hends, hP.mono (fun sid h => Or.inl h)⟩
  | some sn =>
    cases h2 : mapGet (NodeId.node pr.2.2) st.nodes with
    | none =>
      rw [stepPair_none sqrt w st pr (Or.inr h2)]
      exact ⟨hconn, hends, hP.mono (fun sid h => Or.inl h)⟩
    | some en =>
      rw [stepPair_some sqrt w st pr sn en h1 h2]
      have hnone : mapGet (⟨w.id, pr.1⟩ : SegId) st.segments = none := by
        cases h : mapGet (⟨w.id, pr.1⟩ : SegId) st.segments with
        | none => rfl
        | some seg => exact absurd (hP _ _ h) hfresh
      -- lookups in the new segment map
      have hsegGet : ∀ sid,
          mapGet sid (mapSet ⟨w.id, pr.1⟩ (mkSegment sqrt w pr.1 pr.2.1 pr.2.2 sn en)
            st.segments)
          = if (⟨w.id, pr.1⟩ : SegId) = sid
            then some (mkSegment sqrt w pr.1 pr.2.1 pr.2.2 sn en)
            else mapGet sid st.segments := fun sid => mapGet_mapSet _ _ _ _
      -- old connected-road entries survive (their id differs from the fresh id)
      have holdSeg : ∀ nid0 (nd0 : RoadNode), mapGet nid0 st.nodes = some nd0 →
          ∀ sid0 ∈ nd0.connectedRoads,
            ∃ seg, mapGet sid0 (mapSet ⟨w.id, pr.1⟩
                (mkSegment sqrt w pr.1 pr.2.1 pr.2.2 sn en) st.segments) = some seg ∧
              (seg.startNodeId = nid0 ∨ seg.endNodeId = nid0) := by
        intro nid0 nd0 hnd0 sid0 hmem
        obtain ⟨seg, hseg, hinc⟩ := hconn nid0 nd0 hnd0 sid0 hmem
        refine ⟨seg, ?_, hinc⟩
        rw [hsegGet sid0]
        have hne : (⟨w.id, pr.1⟩ : SegId) ≠ sid0 := by
          intro heq
          rw [← heq] at hseg
          rw [hnone] at hseg
          exact Option.noConfusion hseg
        rw [if_neg hne]
        exact hseg
      have hnewStart : (mkSegment sqrt w pr.1 pr.2.1 pr.2.2 sn en).startNodeId
          = NodeId.node pr.2.1 := rfl
      have hnewEnd : (mkSegment sqrt w pr.1 pr.2.1 pr.2.2 sn en).endNodeId
          = NodeId.node pr.2.2 := rfl
      by_cases hab : pr.2.1 = pr.2.2
      · -- the two pushes hit the same node object
        rw [if_pos hab]
        refine ⟨?_, ?_, ?_⟩
        · intro nid nd hnd sid hmem
          rw [mapGet_mapSet] at hnd
          by_cases hkey : NodeId.node pr.2.1 = nid
          · rw [if_pos hkey] at hnd
            cases hnd
            rcases List.mem_append.mp hmem with hmem | hmem
            · exact holdSeg nid sn (hkey ▸ h1) sid hmem
            · have hsid : sid = ⟨w.id, pr.1⟩ := by
                simpa using hmem
              subst hsid
              refine ⟨mkSegment sqrt w pr.1 pr.2.1 pr.2.2 sn en, ?_, ?_⟩
              · rw [hsegGet]; rw [if_pos rfl]
              · left; rw [hnewStart, hkey]
          · rw [if_neg hkey] at hnd
            exact holdSeg nid nd hnd sid hmem
        · intro sid seg hget
          rw [hsegGet sid] at hget
          by_cases hsid : (⟨w.id, pr.1⟩ : SegId) = sid
          · rw [if_pos hsid] at hget
            cases hget
            constructor
            · rw [hnewStart, mapGet_mapSet_self]; rfl
            · rw [hnewEnd, ← hab, mapGet_mapSet_self]; rfl
          · rw [if_neg hsid] at hget
            obtain ⟨hs, he⟩ := hends sid seg hget
            exact ⟨mapGet_isSome_mapSet _ _ _ _ hs, mapGet_isSome_mapSet _ _ _ _ he⟩
        · intro sid seg hget
          rw [hsegGet sid] at hget
          by_cases hsid : (⟨w.id, pr.1⟩ : SegId) = sid
          · exact Or.inr hsid.symm
          · rw [if_neg hsid] at hget
            exact Or.inl (hP sid seg hget)
      · -- distinct endpoint nodes
        rw [if_neg hab]
        have hkeysne : NodeId.node pr.2.1 ≠ NodeId.node pr.2.2 := by
          intro h; exact hab (NodeId.node.inj h)
        refine ⟨?_, ?_, ?_⟩
        · intro nid nd hnd sid hmem
          rw [mapGet_mapSet] at hnd
          by_cases hkeyB : NodeId.node pr.2.2 = nid
          · rw [if_pos hkeyB] at hnd
            cases hnd
            rcases List.mem_append.mp hmem with hmem | hmem
            · exact holdSeg nid en (hkeyB ▸ h2) sid hmem
            · have hsid : sid = ⟨w.id, pr.1⟩ := by
                simpa using hmem
              subst hsid
              refine ⟨mkSegment sqrt w pr.1 pr.2.1 pr.2.2 sn en, ?_, ?_⟩
              · rw [hsegGet]; rw [if_pos rfl]
              · right; rw [hnewEnd, hkeyB]
          · rw [if_neg hkeyB, mapGet_mapSet] at hnd
            by_cases hkeyA : NodeId.node pr.2.1 = nid
            · rw [if_pos hkeyA] at hnd
              cases hnd
              rcases List.mem_append.mp hmem with hmem | hmem
              · exact holdSeg nid sn (hkeyA ▸ h1) sid hmem
              · have hsid : sid = ⟨w.id, pr.1⟩ := by
                  simpa using hmem
                subst hsid
                refine ⟨mkSegment sqrt w pr.1 pr.2.1 pr.2.2 sn en, ?_, ?_⟩
                · rw [hsegGet]; rw [if_pos rfl]
                · left; rw [hnewStart, hkeyA]
            · rw [if_neg hkeyA] at hnd
              exact holdSeg nid nd hnd sid hmem
        · intro sid seg hget
          rw [hsegGet sid] at hget
          by_cases hsid : (⟨w.id, pr.1⟩ : SegId) = sid
          · rw [if_pos hsid] at hget
            cases hget
            constructor
            · rw [hnewStart, mapGet_mapSet_ne _ _ _ _ hkeysne.symm, mapGet_mapSet_self]
              rfl
            · rw [hnewEnd, mapGet_mapSet_self]; rfl
          · rw [if_neg hsid] at hget
            obtain ⟨hs, he⟩ := hends sid seg hget
            exact ⟨mapGet_isSome_mapSet _ _ _ _ (mapGet_isSome_mapSet _ _ _ _ hs),
                   mapGet_isSome_mapSet _ _ _ _ (mapGet_isSome_mapSet _ _ _ _ he)⟩
        · intro sid seg hget
          rw [hsegGet sid] at hget
          by_cases hsid : (⟨w.id, pr.1⟩ : SegId) = sid
          · exact Or.inr hsid.symm
          · rw [if_neg hsid] at hget
            exact Or.inl (hP sid seg hget)

/-- Inner fold of step 2: processing the enumerated pairs of one way preserves
the consistency invariants when no existing segment key belongs to this way. -/
theorem innerFold_inv (sqrt : ℚ → ℚ) (w : OSMWay) (P0 : SegId → Prop)
    (hfresh0 : ∀ j, ¬ P0 ⟨w.id, j⟩) :
    ∀ (zs : List (Nat × Nat)) (i0 : Nat) (st : BuildSt),
      ConnOk st → EndsOk st →
      SegKeysBound st (fun sid => P0 sid ∨ (sid.wayId = w.id ∧ sid.idx < i0)) →
      ConnOk ((List.enumFrom i0 zs).foldl (stepPair sqrt w) st) ∧
      EndsOk ((List.enumFrom i0 zs).foldl (stepPair sqrt w) st) ∧
      SegKeysBound ((List.enumFrom i0 zs).foldl (stepPair sqrt w) st)
        (fun sid => P0 sid ∨ sid.wayId = w.id) := by
  intro zs
  induction zs with
  | nil =>
    intro i0 st hconn hends hbound
    refine ⟨hconn, hends, hbound.mono ?_⟩
    rintro sid (h | h)
    · exact Or.inl h
    · exact Or.inr h.1
  | cons z zs ih =>
    intro i0 st hconn hends hbound
    have hstep := stepPair_inv sqrt w st (i0, z)
      (fun sid => P0 sid ∨ (sid.wayId = w.id ∧ sid.idx < i0)) hbound
      (by
        rintro (h | h)
        · exact hfresh0 i0 h
        · exact Nat.lt_irrefl i0 h.2)
      hconn hends
    have hbound' : SegKeysBound (stepPair sqrt w st (i0, z))
        (fun sid => P0 sid ∨ (sid.wayId = w.id ∧ sid.idx < i0 + 1)) := by
      refine hstep.2.2.mono ?_
      rintro sid (( h | h) | h)
      · exact Or.inl h
      · exact Or.inr ⟨h.1, Nat.lt_succ_of_lt h.2⟩
      · subst h
        exact Or.inr ⟨rfl, Nat.lt_succ_self i0⟩
    have := ih (i0 + 1) (stepPair sqrt w st (i0, z)) hstep.1 hstep.2.1 hbound'
    simpa [List.enumFrom] using this

/-- Outer fold of step 2: processing the ways preserves the invariants when
their ids are pairwise distinct and disjoint from the already-seen ids. -/
theorem buildFold_inv (sqrt : ℚ → ℚ) :
    ∀ (ways : List OSMWay) (done : List Nat) (st : BuildSt),
      (∀ w' ∈ ways, w'.id ∉ done) →
      List.Pairwise (fun w w' => w.id ≠ w'.id) ways →
      ConnOk st → EndsOk st → SegKeysBound st (fun sid => sid.wayId ∈ done) →
      ConnOk (ways.foldl (processWay sqrt) st) ∧
      EndsOk (ways.foldl (processWay sqrt) st) ∧
      SegKeysBound (ways.foldl (processWay sqrt) st)
        (fun sid => sid.wayId ∈ done ∨ sid.wayId ∈ ways.map OSMWay.id) := by
  intro ways
  induction ways with
  | nil =>
    intro done st _ _ hconn hends hbound
    exact ⟨hconn, hends, hbound.mono (fun sid h => Or.inl h)⟩
  | cons w ways ih =>
    intro done st hdisj hpw hconn hends hbound
    rw [List.pairwise_cons] at hpw
    have hwid : w.id ∉ done := hdisj w (List.mem_cons_self w ways)
    -- invariants after processing w
    have hone : ConnOk (processWay sqrt st w) ∧ EndsOk (processWay sqrt st w) ∧
        SegKeysBound (processWay sqrt st w)
          (fun sid => sid.wayId ∈ done ∨ sid.wayId = w.id) := by
      unfold processWay
      by_cases hc : isRoadWay w = true ∧ 2 ≤ w.nodes.length
      · rw [if_pos hc]
        have := innerFold_inv sqrt w (fun sid => sid.wayId ∈ done)
          (fun j h => hwid h) (w.nodes.zip w.nodes.tail) 0 st hconn hends
          (hbound.mono (fun sid h => Or.inl h))
        simpa [wayPairs, List.enum] using this
      · rw [if_neg hc]
        exact ⟨hconn, hends, hbound.mono (fun sid h => Or.inl h)⟩
    have hdisj' : ∀ w' ∈ ways, w'.id ∉ done ++ [w.id] := by
      intro w' hw'
      rw [List.mem_append, List.mem_singleton]
      rintro (h | h)
      · exact hdisj w' (List.mem_cons_of_mem w hw') h
      · exact hpw.1 w' hw' h.symm
    have hbound1 : SegKeysBound (processWay sqrt st w)
        (fun sid => sid.wayId ∈ done ++ [w.id]) := by
      refine hone.2.2.mono ?_
      rintro sid (h | h) <;> rw [List.mem_append, List.mem_singleton]
      · exact Or.inl h
      · exact Or.inr h
    have := ih (done ++ [w.id]) (processWay sqrt st w) hdisj' hpw.2
      hone.1 hone.2.1 hbound1
    refine ⟨this.1, this.2.1, this.2.2.mono ?_⟩
    rintro sid (h | h)
    · rw [List.mem_append, List.mem_singleton] at h
      rcases h with h | h
      · exact Or.inl h
      · exact Or.inr (by simp [h])
    · exact Or.inr (by simp [h])

/-- Step 1 produces nodes with empty connection lists. -/
theorem buildRoadNodes_conn_empty (data : OSMData) (bounds : Bounds)
    (terrain : TerrainData) :
    ∀ nid nd, mapGet nid (buildRoadNodes data bounds terrain).1 = some nd →
      nd.connectedRoads = [] := by
  unfold buildRoadNodes
  have := foldl_inv
    (l := roadNodeIdsOf data.ways)
    (f := fun acc osmId =>
      match mapGet osmId data.nodes with
      | none => acc
      | some osmN =>
        let rn := mkRoadNode bounds terrain osmId osmN
        (mapSet rn.id rn acc.1,
         mapSet (round rn.position.x, round rn.position.z) rn.id acc.2))
    (P := fun acc => ∀ nid nd, mapGet nid acc.1 = some nd → nd.connectedRoads = [])
    (fun acc osmId _ hacc => by
      cases hm : mapGet osmId data.nodes with
      | none => simpa [hm] using hacc
      | some osmN =>
        simp only [hm]
        intro nid nd h
        rw [mapGet_mapSet] at h
        by_cases hkey : (mkRoadNode bounds terrain osmId osmN).id = nid
        · rw [if_pos hkey] at h
          cases h
          rfl
        · rw [if_neg hkey] at h
          exact hacc nid nd h)
    ([], [])
    (by intro nid nd h; exact absurd h (by simp [mapGet]))
  exact this

/-- C3 (amended): provided the input ways have pairwise distinct ids, every
Segment of the built Network has both endpoint ids present as keys of the Node
collection, and every segment id in any Node's `connectedRoads` resolves to a
Segment listing that Node as `startNode` or `endNode`. -/
theorem C3_graph_consistency_amended (sqrt : ℚ → ℚ) (data : OSMData) (bounds : Bounds)
    (terrain : TerrainData)
    (hids : data.ways.Pairwise (fun w w' => w.id ≠ w'.id)) :
    (∀ sid seg,
        mapGet sid (createConnectedRoadNetwork sqrt data bounds terrain).segments
          = some seg →
        (mapGet seg.startNodeId
          (createConnectedRoadNetwork sqrt data bounds terrain).nodes).isSome ∧
        (mapGet seg.endNodeId
          (createConnectedRoadNetwork sqrt data bounds terrain).nodes).isSome) ∧
    (∀ nid nd,
        mapGet nid (createConnectedRoadNetwork sqrt data bounds terrain).nodes
          = some nd →
        ∀ sid ∈ nd.connectedRoads,
          ∃ seg,
            mapGet sid (createConnectedRoadNetwork sqrt data bounds terrain).segments
              = some seg ∧
            (seg.startNodeId = nid ∨ seg.endNodeId = nid)) := by
  have hinit : ConnOk ⟨(buildRoadNodes data bounds terrain).1, []⟩ := by
    intro nid nd hnd sid hmem
    rw [buildRoadNodes_conn_empty data bounds terrain nid nd hnd] at hmem
    exact absurd hmem (List.not_mem_nil sid)
  have hends0 : EndsOk ⟨(buildRoadNodes data bounds terrain).1, []⟩ := by
    intro sid seg h
    exact absurd h (by simp [mapGet])
  have hbound0 : SegKeysBound ⟨(buildRoadNodes data bounds terrain).1, []⟩
      (fun sid => sid.wayId ∈ ([] : List Nat)) := by
    intro sid seg h
    exact absurd h (by simp [mapGet])
  have h := buildFold_inv sqrt data.ways [] ⟨(buildRoadNodes data bounds terrain).1, []⟩
    (fun w' _ h => absurd h (List.not_mem_nil w'.id)) hids hinit hends0 hbound0
  constructor
  · intro sid seg hget
    exact h.2.1 sid seg hget
  · intro nid nd hnd sid hmem
    exact h.1 nid nd hnd sid hmem

/-- Input with two road ways sharing id 7: the second way's segments overwrite
the first way's under the colliding id "segment-7-0". -/
def c3DupData : OSMData :=
  ⟨[⟨7, [1, 2], kResidentialTags⟩, ⟨7, [3, 4], kResidentialTags⟩],
   [(1, ⟨1/2, 3/5⟩), (2, ⟨1/2, 7/10⟩), (3, ⟨1/2, 4/5⟩), (4, ⟨1/2, 9/10⟩)]⟩

/-- C3 (counterexample): with duplicate way ids the claim fails as stated —
node-1's `connectedRoads` holds the id "segment-7-0", but that id now resolves
to the second way's segment, whose endpoints are node-3 and node-4, so the
referenced Segment does not list node-1 as an endpoint. -/
theorem C3_duplicate_way_ids_counterexample :
    (mapGet (NodeId.node 1)
        (createConnectedRoadNetwork ratSqrt c3DupData kBounds kTerrain).nodes).map
      RoadNode.connectedRoads = some [⟨7, 0⟩] ∧
    (mapGet (SegId.mk 7 0)
        (createConnectedRoadNetwork ratSqrt c3DupData kBounds kTerrain).segments).map
      (fun seg => (seg.startNodeId, seg.endNodeId))
      = some (NodeId.node 3, NodeId.node 4) ∧
    NodeId.node 3 ≠ NodeId.node 1 ∧ NodeId.node 4 ≠ NodeId.node 1 := by
  refine ⟨?_, ?_, by decide, by decide⟩ <;> with_unfolding_all decide

/-- Single road way input used to witness the amended C3. -/
def c3WitData : OSMData :=
  ⟨[⟨5, [1, 2], kResidentialTags⟩], [(1, ⟨1/2, 3/5⟩), (2, ⟨1/2, 7/10⟩)]⟩

/-- Witness for C3 (amended) at a concrete single-way input: node-1's only
connection resolves to a segment incident to node-1. -/
theorem C3_graph_consistency_amended_witness :
    ∃ seg,
      mapGet (SegId.mk 5 0)
          (createConnectedRoadNetwork ratSqrt c3WitData kBounds kTerrain).segments
        = some seg ∧
      (seg.startNodeId = NodeId.node 1 ∨ seg.endNodeId = NodeId.node 1) :=
  (C3_graph_consistency_amended ratSqrt c3WitData kBounds kTerrain (by decide)).2
    (NodeId.node 1)
    ⟨NodeId.node 1, ⟨10, 3, 0⟩, [⟨5, 0⟩]⟩
    (by with_unfolding_all decide)
    ⟨5, 0⟩ (by decide)

/-! ## Claim C2: the nearest-node query -/

/-- Invariant of the running accumulator of `findNearestNetworkNode`: while no
candidate is held the minimum is still `maxDistance`; a held candidate is a
node of the network whose distance is the current minimum, below
`maxDistance`. -/
def NearestInv (sqrt : ℚ → ℚ) (pos : Vec3) (net : ConnectedRoadNetwork) (maxD : ℚ)
    (acc : Option RoadNode × ℚ) : Prop :=
  (acc.1 = none → acc.2 = maxD) ∧
  ∀ n, acc.1 = some n →
    (∃ k, (k, n) ∈ net.nodes) ∧ acc.2 = sqrt (planarDistSq pos n.position) ∧ acc.2 < maxD

theorem nearestUpd_inv {sqrt : ℚ → ℚ} {pos : Vec3} {net : ConnectedRoadNetwork}
    {maxD : ℚ} {acc : Option RoadNode × ℚ} {node : RoadNode}
    (hmem : ∃ k, (k, node) ∈ net.nodes) (hacc : NearestInv sqrt pos net maxD acc) :
    NearestInv sqrt pos net maxD (nearestUpd sqrt pos acc node) := by
  unfold nearestUpd
  by_cases hd : sqrt (planarDistSq pos node.position) < acc.2
  · rw [if_pos hd]
    have hlt : sqrt (planarDistSq pos node.position) < maxD := by
      cases hfst : acc.1 with
      | none => exact (hacc.1 hfst) ▸ hd
      | some m => exact lt_trans hd (hacc.2 m hfst).2.2
    refine ⟨fun h => Option.noConfusion h, ?_⟩
    intro n hn
    cases hn
    exact ⟨hmem, rfl, hlt⟩
  · rw [if_neg hd]
    exact hacc

theorem nearestCell_inv {sqrt : ℚ → ℚ} {pos : Vec3} {net : ConnectedRoadNetwork}
    {maxD : ℚ} {acc : Option RoadNode × ℚ} {key : ℤ × ℤ}
    (hacc : NearestInv sqrt pos net maxD acc) :
    NearestInv sqrt pos net maxD (nearestCell sqrt pos net acc key) := by
  unfold nearestCell
  cases h1 : (mapGet key net.nodeIndex).bind (fun nid => mapGet nid net.nodes) with
  | none => exact hacc
  | some node =>
    obtain ⟨nid, _, h2⟩ := Option.bind_eq_some.mp h1
    exact nearestUpd_inv ⟨nid, mapGet_mem _ _ _ h2⟩ hacc

/-- Updates never drop a held candidate. -/
theorem nearestFold_isSome (sqrt : ℚ → ℚ) (pos : Vec3)
    (l : List (NodeId × RoadNode)) (acc : Option RoadNode × ℚ)
    (h : acc.1.isSome) :
    ((l.foldl (fun acc p => nearestUpd sqrt pos acc p.2) acc).1).isSome := by
  refine foldl_inv (P := fun acc => (Prod.fst acc).isSome) ?_ acc h
  intro acc' p _ hsome
  unfold nearestUpd
  by_cases hd : sqrt (planarDistSq pos p.2.position) < acc'.2
  · rw [if_pos hd]; rfl
  · rw [if_neg hd]; exact hsome

/-- If the brute-force phase starting with no candidate and minimum `m` ends
with no candidate, every scanned node is at distance at least `m`. -/
theorem bruteFold_none (sqrt : ℚ → ℚ) (pos : Vec3) :
    ∀ (l : List (NodeId × RoadNode)) (m : ℚ),
      ((l.foldl (fun acc p => nearestUpd sqrt pos acc p.2) (none, m)).1 = none) →
      ∀ p ∈ l, ¬ sqrt (planarDistSq pos p.2.position) < m := by
  intro l
  induction l with
  | nil => intro m _ p hp; exact absurd hp (List.not_mem_nil p)
  | cons q l ih =>
    intro m hfold p hp
    rw [List.foldl_cons] at hfold
    by_cases hd : sqrt (planarDistSq pos q.2.position) < m
    · exfalso
      have hsome : ((nearestUpd sqrt pos (none, m) q.2).1).isSome := by
        unfold nearestUpd
        rw [if_pos hd]
        rfl
      have := nearestFold_isSome sqrt pos l _ hsome
      rw [hfold] at this
      simp at this
    · have hacc : nearestUpd sqrt pos ((none : Option RoadNode), m) q.2 = (none, m) := by
        unfold nearestUpd
        rw [if_neg hd]
      rw [hacc] at hfold
      rcases List.mem_cons.mp hp with h | h
      · subst h; exact hd
      · exact ih m hfold p h

/-- C2 (amended): the lookup on a Network with no Nodes returns not-found; a
returned Node is a Node of the Network at distance strictly below `maxRadius`
(but not necessarily the nearest one — the spatial index keeps only one Node
per rounded grid cell, so the grid phase can settle on a non-minimal Node);
and not-found is returned only when no Node lies strictly within `maxRadius`. -/
theorem C2_nearest_node_amended (sqrt : ℚ → ℚ) (pos : Vec3)
    (net : ConnectedRoadNetwork) (maxD : ℚ) :
    (net.nodes = [] → findNearestNetworkNode sqrt pos net maxD = none) ∧
    (∀ nd, findNearestNetworkNode sqrt pos net maxD = some nd →
      (∃ k, (k, nd) ∈ net.nodes) ∧ sqrt (planarDistSq pos nd.position) < maxD) ∧
    (findNearestNetworkNode sqrt pos net maxD = none →
      ∀ p ∈ net.nodes, ¬ sqrt (planarDistSq pos p.2.position) < maxD) := by
  have hinv0 : NearestInv sqrt pos net maxD (none, maxD) :=
    ⟨fun _ => rfl, fun n hn => Option.noConfusion hn⟩
  set offs := cellOffsets ⌈maxD / 10⌉ with hoffs
  set acc1 := offs.foldl
    (fun accDx dx =>
      offs.foldl
        (fun acc dz =>
          nearestCell sqrt pos net acc (round pos.x + dx, round pos.z + dz))
        accDx)
    ((none : Option RoadNode), maxD) with hacc1
  have hinv1 : NearestInv sqrt pos net maxD acc1 := by
    rw [hacc1]
    refine foldl_inv ?_ _ hinv0
    intro acc dx _ hacc
    refine foldl_inv ?_ _ hacc
    intro acc' dz _ hacc'
    exact nearestCell_inv hacc'
  have hrun : findNearestNetworkNode sqrt pos net maxD =
      (if acc1.1.isNone then
        net.nodes.foldl (fun acc p => nearestUpd sqrt pos acc p.2) acc1
      else acc1).1 := by
    rw [hacc1, hoffs]
    rfl
  refine ⟨?_, ?_, ?_⟩
  · -- empty network
    intro hempty
    rw [hrun]
    have hcells : ∀ (acc : Option RoadNode × ℚ) (key : ℤ × ℤ),
        nearestCell sqrt pos net acc key = acc := by
      intro acc key
      unfold nearestCell
      cases h1 : mapGet key net.nodeIndex with
      | none => rfl
      | some nid =>
        rw [hempty]
        rfl
    have hsame : acc1 = (none, maxD) := by
      rw [hacc1]
      refine foldl_inv (P := fun a => a = ((none : Option RoadNode), maxD)) ?_ _ rfl
      intro acc dx _ hacc
      refine foldl_inv (P := fun a => a = ((none : Option RoadNode), maxD)) ?_ _ hacc
      intro acc' dz _ hacc'
      rw [hcells acc' _]
      exact hacc'
    rw [hsame, hempty]
    rfl
  · -- a returned node lies in the network, strictly within maxRadius
    intro nd hnd
    rw [hrun] at hnd
    by_cases hnone : acc1.1.isNone
    · rw [if_pos hnone] at hnd
      have hinv2 : NearestInv sqrt pos net maxD
          (net.nodes.foldl (fun acc p => nearestUpd sqrt pos acc p.2) acc1) := by
        refine foldl_inv ?_ _ hinv1
        intro acc p hp hacc
        exact nearestUpd_inv ⟨p.1, by rw [Prod.mk.eta]; exact hp⟩ hacc
      obtain ⟨hmem, heq, hlt⟩ := hinv2.2 nd hnd
      rw [heq] at hlt
      exact ⟨hmem, hlt⟩
    · rw [if_neg hnone] at hnd
      obtain ⟨hmem, heq, hlt⟩ := hinv1.2 nd hnd
      rw [heq] at hlt
      exact ⟨hmem, hlt⟩
  · -- not-found only when nothing is strictly within maxRadius
    intro hnone p hp
    rw [hrun] at hnone
    by_cases h1 : acc1.1.isNone
    · rw [if_pos h1] at hnone
      have hfst : acc1.1 = none := Option.isNone_iff_eq_none.mp h1
      have hsnd : acc1.2 = maxD := hinv1.1 hfst
      have hpair : acc1 = (none, maxD) := by
        rw [← hfst, ← hsnd]
      rw [hpair] at hnone
      exact bruteFold_none sqrt pos net.nodes maxD hnone p hp
    · rw [if_neg h1] at hnone
      exact absurd (Option.isNone_iff_eq_none.mpr hnone) h1

/-- Input whose two road nodes land in the same spatial-index cell (planar x
0.3 and 0.4 both round to 0), so the index retains only the later node. -/
def c2Data : OSMData :=
  ⟨[⟨0, [1, 2], kResidentialTags⟩],
   [(1, ⟨1/2, 503/1000⟩), (2, ⟨1/2, 504/1000⟩)]⟩

/-- The network built from `c2Data`. -/
def c2Net : ConnectedRoadNetwork := createConnectedRoadNetwork ratSqrt c2Data kBounds kTerrain

/-- Query position: exactly at node-1's planar position. -/
def c2Pos : Vec3 := ⟨3/10, 0, 0⟩

/-- C2 (counterexample): on the built network `c2Net` the query at node-1's
own position returns node-2 (squared distance 1/100) even though node-1 is at
squared distance 0 — the grid phase hits the index cell that node-2
overwrote and the brute-force fallback never runs, so the returned Node is
not the nearest one. -/
theorem C2_nearest_node_counterexample :
    (findNearestNetworkNode ratSqrt c2Pos c2Net 50).map RoadNode.id
        = some (NodeId.node 2) ∧
    (mapGet (NodeId.node 1) c2Net.nodes).map
        (fun nd => planarDistSq c2Pos nd.position) = some 0 ∧
    (findNearestNetworkNode ratSqrt c2Pos c2Net 50).map
        (fun nd => planarDistSq c2Pos nd.position) = some (1/100) ∧
    (0 : ℚ) < 1/100 := by
  refine ⟨?_, ?_, ?_, by norm_num⟩ <;> with_unfolding_all decide

/-- Witness for C2 (amended): the empty network yields not-found, and on
`c2Net` the returned node-2 is a network Node strictly within radius 50. -/
theorem C2_nearest_node_amended_witness :
    findNearestNetworkNode ratSqrt ⟨0, 0, 0⟩ ⟨[], [], []⟩ 50 = none ∧
    ((∃ k, (k, (⟨NodeId.node 2, ⟨2/5, 3, 0⟩, [⟨0, 0⟩]⟩ : RoadNode)) ∈ c2Net.nodes) ∧
      ratSqrt (planarDistSq c2Pos
        (⟨NodeId.node 2, ⟨2/5, 3, 0⟩, [⟨0, 0⟩]⟩ : RoadNode).position) < 50) :=
  ⟨(C2_nearest_node_amended ratSqrt ⟨0, 0, 0⟩ ⟨[], [], []⟩ 50).1 rfl,
   (C2_nearest_node_amended ratSqrt c2Pos c2Net 50).2.1
     ⟨NodeId.node 2, ⟨2/5, 3, 0⟩, [⟨0, 0⟩]⟩
     (by with_unfolding_all decide)⟩

/-! ## Claim C8: reposition -/

/-- Segment A of the two-segment path network: node-1 to node-2. -/
def c8SegA : RoadSegment :=
  ⟨⟨1, 0⟩, .node 1, .node 2, [⟨0, 0, 0⟩, ⟨100, 0, 0⟩], 10, 100, none, none, 1⟩

/-- Segment B of the two-segment path network: node-2 to node-3. -/
def c8SegB : RoadSegment :=
  ⟨⟨2, 0⟩, .node 2, .node 3, [⟨100, 0, 0⟩, ⟨150, 0, 0⟩], 10, 50, none, none, 2⟩

/-- A path network node-1 — node-2 — node-3: the middle node has two
connections, the outer nodes one each, so NO segment has more than one
connection at BOTH endpoints. -/
def c8Net : ConnectedRoadNetwork :=
  ⟨[(.node 1, ⟨.node 1, ⟨0, 0, 0⟩, [⟨1, 0⟩]⟩),
    (.node 2, ⟨.node 2, ⟨100, 0, 0⟩, [⟨1, 0⟩, ⟨2, 0⟩]⟩),
    (.node 3, ⟨.node 3, ⟨150, 0, 0⟩, [⟨2, 0⟩]⟩)],
   [(⟨1, 0⟩, c8SegA), (⟨2, 0⟩, c8SegB)], []⟩

/-- A traversing state on `c8Net`. -/
def c8State : GraphDrivingState :=
  { isActive := true, speed := 20, network := some c8Net,
    currentSegment := some c8SegA, currentSegmentId := some ⟨1, 0⟩,
    segmentProgress := 0, direction := 1,
    targetNodeId := some (.node 2), lastNodeId := some (.node 1) }

/-- C8 (counterexample): on `c8Net` no Segment has more than one connection at
both endpoints (counts are 1, 2, 1), so under the claim reposition must fail
with the no-valid-segment error; the code instead uses an OR of the two
endpoint counts, reports success and repositions onto segment-1-0, whose start
node has exactly one connection. -/
theorem C8_reposition_counterexample :
    (repositionGraphCar 0 0 0 c8State).2 = RepositionOutcome.repositioned ∧
    (repositionGraphCar 0 0 0 c8State).1.currentSegmentId = some ⟨1, 0⟩ ∧
    (mapGet (NodeId.node 1) c8Net.nodes).map (fun nd => nd.connectedRoads.length)
      = some 1 ∧
    (mapGet (NodeId.node 2) c8Net.nodes).map (fun nd => nd.connectedRoads.length)
      = some 2 ∧
    (mapGet (NodeId.node 3) c8Net.nodes).map (fun nd => nd.connectedRoads.length)
      = some 1 ∧
    (mapValues c8Net.segments).map (fun seg => (seg.startNodeId, seg.endNodeId))
      = [(NodeId.node 1, NodeId.node 2), (NodeId.node 2, NodeId.node 3)] := by
  refine ⟨?_, ?_, ?_, ?_, ?_, ?_⟩ <;> with_unfolding_all decide

/-- C8 (amended): while traversing, reposition draws a uniformly random
Segment from the subset of Segments AT LEAST ONE of whose endpoints has more
than one connection (the source combines the two endpoint counts with `||`),
sets progress to a random value in [0, 1/2), picks the direction randomly and
recomputes target and origin from the chosen Segment and direction; it fails
with the no-valid-segment error exactly when that subset is empty. -/
theorem C8_reposition_amended (rSeg rDir rProg : ℚ) (s : GraphDrivingState)
    (net : ConnectedRoadNetwork) (hA : s.isActive = true) (hNet : s.network = some net)
    (hr0 : 0 ≤ rSeg) (hr1 : rSeg < 1) (hp0 : 0 ≤ rProg) (hp1 : rProg < 1) :
    (∀ seg, seg ∈ validRepositionSegments net ↔
      (seg ∈ mapValues net.segments ∧
        ∃ sn en, mapGet seg.startNodeId net.nodes = some sn ∧
          mapGet seg.endNodeId net.nodes = some en ∧
          (1 < sn.connectedRoads.length ∨ 1 < en.connectedRoads.length))) ∧
    (validRepositionSegments net = [] →
      repositionGraphCar rSeg rDir rProg s = (s, RepositionOutcome.noValidSegment)) ∧
    (validRepositionSegments net ≠ [] →
      ∃ seg, (validRepositionSegments net).get?
          (⌊rSeg * ((validRepositionSegments net).length : ℚ)⌋).toNat = some seg ∧
        (repositionGraphCar rSeg rDir rProg s).2 = RepositionOutcome.repositioned ∧
        (repositionGraphCar rSeg rDir rProg s).1.currentSegment = some seg ∧
        (repositionGraphCar rSeg rDir rProg s).1.currentSegmentId = some seg.id ∧
        (repositionGraphCar rSeg rDir rProg s).1.segmentProgress = rProg * (1/2) ∧
        0 ≤ rProg * (1/2) ∧ rProg * (1/2) < 1/2 ∧
        (rDir < 1/2 →
          (repositionGraphCar rSeg rDir rProg s).1.direction = 1 ∧
          (repositionGraphCar rSeg rDir rProg s).1.targetNodeId = some seg.endNodeId ∧
          (repositionGraphCar rSeg rDir rProg s).1.lastNodeId = some seg.startNodeId) ∧
        (¬ rDir < 1/2 →
          (repositionGraphCar rSeg rDir rProg s).1.direction = -1 ∧
          (repositionGraphCar rSeg rDir rProg s).1.targetNodeId = some seg.startNodeId ∧
          (repositionGraphCar rSeg rDir rProg s).1.lastNodeId = some seg.endNodeId)) := by
  refine ⟨?_, ?_, ?_⟩
  · -- the selection pool is exactly the OR-filtered segment values
    intro seg
    unfold validRepositionSegments
    rw [List.mem_filter]
    constructor
    · rintro ⟨hmem, hfil⟩
      refine ⟨hmem, ?_⟩
      cases h1 : mapGet seg.startNodeId net.nodes with
      | none => rw [h1] at hfil; exact absurd hfil (by simp)
      | some sn =>
        cases h2 : mapGet seg.endNodeId net.nodes with
        | none => rw [h1, h2] at hfil; exact absurd hfil (by simp)
        | some en =>
          rw [h1, h2] at hfil
          refine ⟨sn, en, rfl, rfl, ?_⟩
          simpa using hfil
    · rintro ⟨hmem, sn, en, h1, h2, hor⟩
      refine ⟨hmem, ?_⟩
      rw [h1, h2]
      simpa using hor
  · -- empty pool: typed failure, untouched state
    intro hempty
    simp only [repositionGraphCar, hA, hNet, hempty]
    rfl
  · -- non-empty pool
    intro hne
    have hlen : 0 < (validRepositionSegments net).length := List.length_pos.mpr hne
    have hlenQ : (0 : ℚ) < ((validRepositionSegments net).length : ℚ) := by
      exact_mod_cast hlen
    have hidx0 : (0 : ℤ) ≤ ⌊rSeg * ((validRepositionSegments net).length : ℚ)⌋ := by
      apply Int.floor_nonneg.mpr
      exact mul_nonneg hr0 (le_of_lt hlenQ)
    have hidxlt : ⌊rSeg * ((validRepositionSegments net).length : ℚ)⌋
        < ((validRepositionSegments net).length : ℤ) := by
      apply Int.floor_lt.mpr
      push_cast
      calc rSeg * ((validRepositionSegments net).length : ℚ)
          < 1 * ((validRepositionSegments net).length : ℚ) := by
            exact mul_lt_mul_of_pos_right hr1 hlenQ
        _ = ((validRepositionSegments net).length : ℚ) := one_mul _
    have hnat : (⌊rSeg * ((validRepositionSegments net).length : ℚ)⌋).toNat
        < (validRepositionSegments net).length := by
      omega
    refine ⟨(validRepositionSegments net).get
      ⟨(⌊rSeg * ((validRepositionSegments net).length : ℚ)⌋).toNat, hnat⟩,
      List.get?_eq_get hnat, ?_⟩
    have hrun : repositionGraphCar rSeg rDir rProg s =
        (let seg := (validRepositionSegments net).get
          ⟨(⌊rSeg * ((validRepositionSegments net).length : ℚ)⌋).toNat, hnat⟩
         let randomDirection : ℚ := if rDir < 1/2 then 1 else -1
         ({ s with
              currentSegment := some seg
              currentSegmentId := some seg.id
              direction := randomDirection
              segmentProgress := rProg * (1/2)
              targetNodeId :=
                some (if randomDirection = 1 then seg.endNodeId else seg.startNodeId)
              lastNodeId :=
                some (if randomDirection = 1 then seg.startNodeId else seg.endNodeId) },
          RepositionOutcome.repositioned)) := by
      simp only [repositionGraphCar, hA, hNet, List.isEmpty_iff, List.get?_eq_get hnat]
      rw [if_neg hne]
    rw [hrun]
    refine ⟨rfl, rfl, rfl, rfl, mul_nonneg hp0 (by norm_num), ?_, ?_, ?_⟩
    · have : rProg * (1/2) < 1 * (1/2) := by
        apply mul_lt_mul_of_pos_right hp1
        norm_num
      simpa using this
    · intro hdir
      simp only [if_pos hdir]
      norm_num
    · intro hdir
      simp only [if_neg hdir]
      norm_num

/-- Witness for C8 (amended) on `c8Net` with all three random draws 0: the
pool is non-empty, the indexed segment is chosen, progress 0 and direction 1
are installed with the matching target and origin. -/
theorem C8_reposition_amended_witness :
    ∃ seg, (validRepositionSegments c8Net).get?
        (⌊(0 : ℚ) * ((validRepositionSegments c8Net).length : ℚ)⌋).toNat = some seg ∧
      (repositionGraphCar 0 0 0 c8State).2 = RepositionOutcome.repositioned ∧
      (repositionGraphCar 0 0 0 c8State).1.currentSegment = some seg ∧
      (repositionGraphCar 0 0 0 c8State).1.currentSegmentId = some seg.id ∧
      (repositionGraphCar 0 0 0 c8State).1.segmentProgress = (0 : ℚ) * (1/2) ∧
      (0 : ℚ) ≤ (0 : ℚ) * (1/2) ∧ (0 : ℚ) * (1/2) < 1/2 ∧
      ((0 : ℚ) < 1/2 →
        (repositionGraphCar 0 0 0 c8State).1.direction = 1 ∧
        (repositionGraphCar 0 0 0 c8State).1.targetNodeId = some seg.endNodeId ∧
        (repositionGraphCar 0 0 0 c8State).1.lastNodeId = some seg.startNodeId) ∧
      (¬ (0 : ℚ) < 1/2 →
        (repositionGraphCar 0 0 0 c8State).1.direction = -1 ∧
        (repositionGraphCar 0 0 0 c8State).1.targetNodeId = some seg.startNodeId ∧
        (repositionGraphCar 0 0 0 c8State).1.lastNodeId = some seg.endNodeId) :=
  (C8_reposition_amended 0 0 0 c8State c8Net rfl rfl (le_refl 0) (by norm_num)
    (le_refl 0) (by norm_num)).2.2 (by with_unfolding_all decide)

/-! ## Node-transition lemmas shared by the traversal claims -/

/-- A tick whose updated progress leaves (0, 1) routes to `handleNodeReached`
with the overshot progress stored. -/
theorem update_trigger (r : ℚ) (s : GraphDrivingState) (dt : ℚ) (seg : RoadSegment)
    (net : ConnectedRoadNetwork) (hA : s.isActive = true)
    (hSeg : s.currentSegment = some seg) (hNet : s.network = some net)
    (htrig : 1 ≤ s.segmentProgress + s.speed * 1000 / 3600 / seg.length * dt * s.direction ∨
      s.segmentProgress + s.speed * 1000 / 3600 / seg.length * dt * s.direction ≤ 0) :
    updateGraphDriving r s dt =
      (handleNodeReached r { s with segmentProgress :=
          s.segmentProgress + s.speed * 1000 / 3600 / seg.length * dt * s.direction },
       true) := by
  simp only [updateGraphDriving, hA, hSeg, hNet]
  rw [if_pos htrig]

/-- Dead-end branch of `handleNodeReached`: no candidate segment remains. -/
theorem handleNodeReached_deadEnd (r : ℚ) (s : GraphDrivingState)
    (net : ConnectedRoadNetwork) (tid : NodeId) (tnode : RoadNode)
    (hNet : s.network = some net) (hT : s.targetNodeId = some tid)
    (hNode : mapGet tid net.nodes = some tnode)
    (hempty : possibleSegmentsAt s.currentSegmentId tnode net = []) :
    handleNodeReached r s =
      { s with direction := s.direction * (-1),
               segmentProgress := max 0 (min 1 (1 - s.segmentProgress)),
               targetNodeId := s.lastNodeId,
               lastNodeId := s.targetNodeId } := by
  simp only [handleNodeReached, hNet, hT, hNode, hempty]
  rfl

/-- Intersection branch of `handleNodeReached`: the drawn candidate segment is
installed with progress 0, its direction determined by comparing its start
node with the arrived-at node. -/
theorem handleNodeReached_intersection (r : ℚ) (s : GraphDrivingState)
    (net : ConnectedRoadNetwork) (tid : NodeId) (tnode : RoadNode)
    (nextSeg : RoadSegment)
    (hNet : s.network = some net) (hT : s.targetNodeId = some tid)
    (hNode : mapGet tid net.nodes = some tnode)
    (hidx : (possibleSegmentsAt s.currentSegmentId tnode net).get?
        (⌊r * ((possibleSegmentsAt s.currentSegmentId tnode net).length : ℚ)⌋).toNat
      = some nextSeg) :
    handleNodeReached r s =
      { s with currentSegment := some nextSeg,
               currentSegmentId := some nextSeg.id,
               lastNodeId := s.targetNodeId,
               targetNodeId :=
                 some (if nextSeg.startNodeId = tid then nextSeg.endNodeId
                       else nextSeg.startNodeId),
               direction := if nextSeg.startNodeId = tid then 1 else -1,
               segmentProgress := 0 } := by
  have hne : (possibleSegmentsAt s.currentSegmentId tnode net).isEmpty = false := by
    cases h : possibleSegmentsAt s.currentSegmentId tnode net with
    | nil => rw [h] at hidx; simp [List.get?] at hidx
    | cons a l => rfl
  simp only [handleNodeReached, hNet, hT, hNode, hne, hidx]
  rfl

/-! ## Claim C6: intersection transition -/

/-- Segment A of the example scenario: Node1 to Node2, length 100. -/
def c6SegA : RoadSegment :=
  ⟨⟨1, 0⟩, .node 1, .node 2, [⟨0, 0, 0⟩, ⟨100, 0, 0⟩], 10, 100, none, none, 1⟩

/-- Segment B of the example scenario: Node2 to Node3, length 50. -/
def c6SegB : RoadSegment :=
  ⟨⟨2, 0⟩, .node 2, .node 3, [⟨100, 0, 0⟩, ⟨150, 0, 0⟩], 10, 50, none, none, 2⟩

/-- The example network: two Segments sharing Node2. -/
def c6Net : ConnectedRoadNetwork :=
  ⟨[(.node 1, ⟨.node 1, ⟨0, 0, 0⟩, [⟨1, 0⟩]⟩),
    (.node 2, ⟨.node 2, ⟨100, 0, 0⟩, [⟨1, 0⟩, ⟨2, 0⟩]⟩),
    (.node 3, ⟨.node 3, ⟨150, 0, 0⟩, [⟨2, 0⟩]⟩)],
   [(⟨1, 0⟩, c6SegA), (⟨2, 0⟩, c6SegB)],
   [((0, 0), .node 1), ((100, 0), .node 2), ((150, 0), .node 3)]⟩

/-- The state after starting at Node1 on `c6Net`, with speed raised to
360 km/h (100 units per second). -/
def c6Start : GraphDrivingState :=
  { (startGraphDriving ratSqrt createGraphDrivingState ⟨0, 0, 0⟩ c6Net).1 with
      speed := 360 }

/-- The expected state after the intersection transition at Node2. -/
def c6After : GraphDrivingState :=
  { isActive := true, speed := 360, network := some c6Net,
    currentSegment := some c6SegB, currentSegmentId := some ⟨2, 0⟩,
    segmentProgress := 0, direction := 1,
    targetNodeId := some (.node 3), lastNodeId := some (.node 2) }

/-- C6: at an intersection the machine installs the drawn candidate Segment
with progress 0, origin the arrived-at Node, direction +1 exactly when the
chosen Segment's start node equals the arrived-at Node, and target that
Segment's far endpoint; concretely, starting at Node1 on the two-segment
network (A: Node1-Node2 length 100, B: Node2-Node3 length 50) and traveling
100 units transitions onto B with direction +1, origin Node2, target Node3,
progress 0. -/
theorem C6_intersection_transition :
    (∀ (r dt : ℚ) (s : GraphDrivingState) (net : ConnectedRoadNetwork)
        (seg : RoadSegment) (tid : NodeId) (tnode : RoadNode) (nextSeg : RoadSegment),
      s.isActive = true → s.currentSegment = some seg → s.network = some net →
      s.targetNodeId = some tid → mapGet tid net.nodes = some tnode →
      (1 ≤ s.segmentProgress + s.speed * 1000 / 3600 / seg.length * dt * s.direction ∨
        s.segmentProgress + s.speed * 1000 / 3600 / seg.length * dt * s.direction ≤ 0) →
      (possibleSegmentsAt s.currentSegmentId tnode net).get?
          (⌊r * ((possibleSegmentsAt s.currentSegmentId tnode net).length : ℚ)⌋).toNat
        = some nextSeg →
      (updateGraphDriving r s dt).2 = true ∧
      (updateGraphDriving r s dt).1.currentSegment = some nextSeg ∧
      (updateGraphDriving r s dt).1.currentSegmentId = some nextSeg.id ∧
      ((updateGraphDriving r s dt).1.direction = 1 ↔ nextSeg.startNodeId = tid) ∧
      (updateGraphDriving r s dt).1.targetNodeId =
        some (if nextSeg.startNodeId = tid then nextSeg.endNodeId
              else nextSeg.startNodeId) ∧
      (updateGraphDriving r s dt).1.lastNodeId = some tid ∧
      (updateGraphDriving r s dt).1.segmentProgress = 0 ∧
      (updateGraphDriving r s dt).1.isActive = true) ∧
    ((startGraphDriving ratSqrt createGraphDrivingState ⟨0, 0, 0⟩ c6Net).2
        = StartOutcome.started ∧
      c6Start.currentSegmentId = some ⟨1, 0⟩ ∧ c6Start.direction = 1 ∧
      c6Start.targetNodeId = some (.node 2) ∧ c6Start.lastNodeId = some (.node 1) ∧
      c6Start.segmentProgress = 0 ∧
      updateGraphDriving 0 c6Start 1 = (c6After, true)) := by
  constructor
  · intro r dt s net seg tid tnode nextSeg hA hSeg hNet hT hNode htrig hidx
    rw [update_trigger r s dt seg net hA hSeg hNet htrig]
    rw [handleNodeReached_intersection r
      { s with segmentProgress :=
          s.segmentProgress + s.speed * 1000 / 3600 / seg.length * dt * s.direction }
      net tid tnode nextSeg hNet hT hNode hidx]
    refine ⟨rfl, rfl, rfl, ?_, rfl, hT, rfl, hA⟩
    by_cases hc : nextSeg.startNodeId = tid
    · simp [hc]
    · simp only [if_neg hc]
      constructor
      · intro h; norm_num at h
      · intro h; exact absurd h hc
  · refine ⟨?_, ?_, ?_, ?_, ?_, ?_, ?_⟩ <;> with_unfolding_all decide

/-- Witness for C6 at the example scenario itself: instantiating the general
intersection rule with the concrete transition tick at Node2. -/
theorem C6_intersection_transition_witness :
    (updateGraphDriving 0 c6Start 1).2 = true ∧
    (updateGraphDriving 0 c6Start 1).1.currentSegment = some c6SegB ∧
    (updateGraphDriving 0 c6Start 1).1.currentSegmentId = some c6SegB.id ∧
    ((updateGraphDriving 0 c6Start 1).1.direction = 1 ↔
      c6SegB.startNodeId = NodeId.node 2) ∧
    (updateGraphDriving 0 c6Start 1).1.targetNodeId =
      some (if c6SegB.startNodeId = NodeId.node 2 then c6SegB.endNodeId
            else c6SegB.startNodeId) ∧
    (updateGraphDriving 0 c6Start 1).1.lastNodeId = some (NodeId.node 2) ∧
    (updateGraphDriving 0 c6Start 1).1.segmentProgress = 0 ∧
    (updateGraphDriving 0 c6Start 1).1.isActive = true :=
  C6_intersection_transition.1 0 1 c6Start c6Net c6SegA (NodeId.node 2)
    ⟨.node 2, ⟨100, 0, 0⟩, [⟨1, 0⟩, ⟨2, 0⟩]⟩ c6SegB
    (by with_unfolding_all decide) (by with_unfolding_all decide)
    (by with_unfolding_all decide) (by with_unfolding_all decide)
    (by with_unfolding_all decide)
    (by with_unfolding_all decide)
    (by with_unfolding_all decide)

/-! ## Claim C1: dead-end reversal on a single-segment network -/

/-- Any node returned by the lookup is a node of the network (grid hits are
dereferenced through the node map; the brute-force scan reads the node map
directly). -/
theorem findNearestNetworkNode_mem (sqrt : ℚ → ℚ) (pos : Vec3)
    (net : ConnectedRoadNetwork) (maxD : ℚ) (nd : RoadNode)
    (h : findNearestNetworkNode sqrt pos net maxD = some nd) :
    ∃ k, (k, nd) ∈ net.nodes := by
  have hinv0 : NearestInv sqrt pos net maxD (none, maxD) :=
    ⟨fun _ => rfl, fun n hn => Option.noConfusion hn⟩
  set offs := cellOffsets ⌈maxD / 10⌉ with hoffs
  set acc1 := offs.foldl
    (fun accDx dx =>
      offs.foldl
        (fun acc dz =>
          nearestCell sqrt pos net acc (round pos.x + dx, round pos.z + dz))
        accDx)
    ((none : Option RoadNode), maxD) with hacc1
  have hinv1 : NearestInv sqrt pos net maxD acc1 := by
    rw [hacc1]
    refine foldl_inv ?_ _ hinv0
    intro acc dx _ hacc
    refine foldl_inv ?_ _ hacc
    intro acc' dz _ hacc'
    exact nearestCell_inv hacc'
  have hrun : findNearestNetworkNode sqrt pos net maxD =
      (if acc1.1.isNone then
        net.nodes.foldl (fun acc p => nearestUpd sqrt pos acc p.2) acc1
      else acc1).1 := by
    rw [hacc1, hoffs]
    rfl
  rw [hrun] at h
  by_cases hnone : acc1.1.isNone
  · rw [if_pos hnone] at h
    have hinv2 : NearestInv sqrt pos net maxD
        (net.nodes.foldl (fun acc p => nearestUpd sqrt pos acc p.2) acc1) := by
      refine foldl_inv ?_ _ hinv1
      intro acc p hp hacc
      exact nearestUpd_inv ⟨p.1, by rw [Prod.mk.eta]; exact hp⟩ hacc
    exact (hinv2.2 nd h).1
  · rw [if_neg hnone] at h
    exact (hinv1.2 nd h).1

/-- The candidate list is empty at a node whose only connection is the
current segment. -/
theorem possibleSegmentsAt_self (sid : SegId) (tnode : RoadNode)
    (net : ConnectedRoadNetwork) (h : tnode.connectedRoads = [sid]) :
    possibleSegmentsAt (some sid) tnode net = [] := by
  simp [possibleSegmentsAt, h]

/-- Sampling at effective progress 1 lands exactly on the last polyline point
(plus the camera height 1.8). -/
theorem samplePosition_effective_one (s : GraphDrivingState) (seg : RoadSegment)
    (hSeg : s.currentSegment = some seg) (hpts : 2 ≤ seg.points.length)
    (heff : (if s.direction = -1 then 1 - s.segmentProgress else s.segmentProgress) = 1) :
    ∃ lp, seg.points.get? (seg.points.length - 1) = some lp ∧
      samplePosition s = some ⟨lp.x, lp.y + 9/5, lp.z⟩ := by
  have hlt1 : seg.points.length - 1 < seg.points.length := by omega
  have hlt2 : seg.points.length - 2 < seg.points.length := by omega
  refine ⟨seg.points.get ⟨_, hlt1⟩, List.get?_eq_get hlt1, ?_⟩
  have hlen : ¬ seg.points.length < 2 := by omega
  have hn2 : (2 : ℤ) ≤ (seg.points.length : ℤ) := by exact_mod_cast hpts
  have hfloor : ⌊(1 : ℚ) * ((seg.points.length : ℚ) - 1)⌋
      = (seg.points.length : ℤ) - 1 := by
    rw [one_mul]
    have : ((seg.points.length : ℚ) - 1) = (((seg.points.length : ℤ) - 1 : ℤ) : ℚ) := by
      push_cast
      ring
    rw [this, Int.floor_intCast]
  have hmin : min ((seg.points.length : ℤ) - 1) ((seg.points.length : ℤ) - 2)
      = (seg.points.length : ℤ) - 2 := min_eq_right (by omega)
  have hneg : ¬ ((seg.points.length : ℤ) - 2 < 0) := by omega
  have htoNat : ((seg.points.length : ℤ) - 2).toNat = seg.points.length - 2 := by
    omega
  have hsucc : seg.points.length - 2 + 1 = seg.points.length - 1 := by omega
  have hlocal : (1 : ℚ) * ((seg.points.length : ℚ) - 1)
      - (((seg.points.length : ℤ) - 2 : ℤ) : ℚ) = 1 := by
    push_cast
    ring
  simp only [samplePosition, hSeg, if_neg hlen, heff, hfloor, hmin, if_neg hneg,
    htoNat, hsucc, List.get?_eq_get hlt1, List.get?_eq_get hlt2, hlocal]
  congr 1
  simp only [Vec3.mk.injEq]
  refine ⟨by ring, by ring, by ring⟩

/-- The single Segment of the C1 network family (endpoints node-n1, node-n2,
polyline `pts`, length `L`). -/
def singleSegRoadSegment (n1 n2 : Nat) (sid : SegId) (pts : List Vec3) (L wdt : ℚ) :
    RoadSegment :=
  ⟨sid, .node n1, .node n2, pts, wdt, L, none, none, sid.wayId⟩

/-- A Network consisting of a single Segment: two Nodes, each with exactly one
connected Segment (the claim's network family, with an arbitrary spatial
index over the two nodes). -/
def singleSegNet (n1 n2 : Nat) (pos1 pos2 : Vec3) (sid : SegId) (pts : List Vec3)
    (L wdt : ℚ) (idx : List ((ℤ × ℤ) × NodeId)) : ConnectedRoadNetwork :=
  ⟨[(.node n1, ⟨.node n1, pos1, [sid]⟩), (.node n2, ⟨.node n2, pos2, [sid]⟩)],
   [(sid, singleSegRoadSegment n1 n2 sid pts L wdt)], idx⟩

/-- The traversal states reachable on the single-segment network: active, on
the Segment, progress within [0, 1], heading at one of the two endpoints with
the other behind. -/
def ValidTraversal (n1 n2 : Nat) (pos1 pos2 : Vec3) (sid : SegId) (pts : List Vec3)
    (L wdt : ℚ) (idx : List ((ℤ × ℤ) × NodeId)) (s : GraphDrivingState) : Prop :=
  s.isActive = true ∧
  s.network = some (singleSegNet n1 n2 pos1 pos2 sid pts L wdt idx) ∧
  s.currentSegment = some (singleSegRoadSegment n1 n2 sid pts L wdt) ∧
  s.currentSegmentId = some sid ∧
  0 ≤ s.segmentProgress ∧ s.segmentProgress ≤ 1 ∧
  ((s.direction = 1 ∧ s.targetNodeId = some (.node n2) ∧ s.lastNodeId = some (.node n1)) ∨
   (s.direction = -1 ∧ s.targetNodeId = some (.node n1) ∧ s.lastNodeId = some (.node n2)))

theorem singleSeg_mapGet_n1 (n1 n2 : Nat) (pos1 pos2 : Vec3) (sid : SegId)
    (pts : List Vec3) (L wdt : ℚ) (idx : List ((ℤ × ℤ) × NodeId)) :
    mapGet (NodeId.node n1) (singleSegNet n1 n2 pos1 pos2 sid pts L wdt idx).nodes
      = some ⟨.node n1, pos1, [sid]⟩ := by
  simp [singleSegNet, mapGet]

theorem singleSeg_mapGet_n2 (n1 n2 : Nat) (pos1 pos2 : Vec3) (sid : SegId)
    (pts : List Vec3) (L wdt : ℚ) (idx : List ((ℤ × ℤ) × NodeId)) (hne : n1 ≠ n2) :
    mapGet (NodeId.node n2) (singleSegNet n1 n2 pos1 pos2 sid pts L wdt idx).nodes
      = some ⟨.node n2, pos2, [sid]⟩ := by
  simp [singleSegNet, mapGet, hne]

/-- The transition tick on the single-segment network: any tick whose updated
progress leaves (0, 1) reverses direction, swaps target and origin, clamps the
progress to the complementary boundary, stays traversing, and samples exactly
at the far polyline endpoint. -/
theorem singleSeg_transition (n1 n2 : Nat) (pos1 pos2 : Vec3) (sid : SegId)
    (pts : List Vec3) (L wdt : ℚ) (idx : List ((ℤ × ℤ) × NodeId))
    (hne : n1 ≠ n2) (hL : 0 < L) (hpts : 2 ≤ pts.length)
    (s : GraphDrivingState) (dt r : ℚ)
    (hv : ValidTraversal n1 n2 pos1 pos2 sid pts L wdt idx s)
    (hsp : 0 < s.speed) (hdt : 0 < dt)
    (htrig : 1 ≤ s.segmentProgress + s.speed * 1000 / 3600 / L * dt * s.direction ∨
      s.segmentProgress + s.speed * 1000 / 3600 / L * dt * s.direction ≤ 0) :
    updateGraphDriving r s dt =
      ({ s with direction := s.direction * (-1),
                segmentProgress := max 0 (min 1 (1 - (s.segmentProgress +
                  s.speed * 1000 / 3600 / L * dt * s.direction))),
                targetNodeId := s.lastNodeId,
                lastNodeId := s.targetNodeId }, true) ∧
    ValidTraversal n1 n2 pos1 pos2 sid pts L wdt idx (updateGraphDriving r s dt).1 ∧
    (((updateGraphDriving r s dt).1.direction = 1 ∧
        (updateGraphDriving r s dt).1.segmentProgress = 1) ∨
     ((updateGraphDriving r s dt).1.direction = -1 ∧
        (updateGraphDriving r s dt).1.segmentProgress = 0)) ∧
    (∃ lp, pts.get? (pts.length - 1) = some lp ∧
      samplePosition (updateGraphDriving r s dt).1 = some ⟨lp.x, lp.y + 9/5, lp.z⟩) := by
  obtain ⟨hA, hNet, hSeg, hSid, hp0, hp1, hdir⟩ := hv
  have hspeedPos : 0 < s.speed * 1000 / 3600 / L := by
    apply div_pos _ hL
    positivity
  -- the tick routes to handleNodeReached with the overshot progress
  have hupd := update_trigger r s dt (singleSegRoadSegment n1 n2 sid pts L wdt)
    (singleSegNet n1 n2 pos1 pos2 sid pts L wdt idx) hA hSeg hNet htrig
  rw [show (singleSegRoadSegment n1 n2 sid pts L wdt).length = L from rfl] at hupd
  rcases hdir with ⟨hd, hT, hLast⟩ | ⟨hd, hT, hLast⟩
  · -- direction +1: the far end node-n2 is reached
    have hdelta : 0 < s.speed * 1000 / 3600 / L * dt * s.direction := by
      rw [hd, mul_one]
      exact mul_pos hspeedPos hdt
    have hover : 1 ≤ s.segmentProgress + s.speed * 1000 / 3600 / L * dt * s.direction := by
      rcases htrig with h | h
      · exact h
      · exfalso; nlinarith
    have hdead := handleNodeReached_deadEnd r
      { s with segmentProgress := s.segmentProgress +
          s.speed * 1000 / 3600 / L * dt * s.direction }
      (singleSegNet n1 n2 pos1 pos2 sid pts L wdt idx) (.node n2)
      ⟨.node n2, pos2, [sid]⟩ hNet hT
      (singleSeg_mapGet_n2 n1 n2 pos1 pos2 sid pts L wdt idx hne)
      (by
        show possibleSegmentsAt s.currentSegmentId ⟨.node n2, pos2, [sid]⟩
          (singleSegNet n1 n2 pos1 pos2 sid pts L wdt idx) = []
        rw [hSid]
        exact possibleSegmentsAt_self sid ⟨.node n2, pos2, [sid]⟩ _ rfl)
    have hclamp : max 0 (min 1 (1 - (s.segmentProgress +
        s.speed * 1000 / 3600 / L * dt * s.direction))) = 0 := by
      have h1 : 1 - (s.segmentProgress + s.speed * 1000 / 3600 / L * dt * s.direction)
          ≤ 0 := by linarith
      rw [min_eq_right (by linarith), max_eq_left h1]
    have hfull : updateGraphDriving r s dt =
        ({ s with direction := s.direction * (-1),
                  segmentProgress := max 0 (min 1 (1 - (s.segmentProgress +
                    s.speed * 1000 / 3600 / L * dt * s.direction))),
                  targetNodeId := s.lastNodeId,
                  lastNodeId := s.targetNodeId }, true) := by
      rw [hupd, hdead]
    refine ⟨hfull, ?_, ?_, ?_⟩
    · rw [hfull]
      refine ⟨hA, hNet, hSeg, hSid, ?_, ?_, Or.inr ⟨by rw [hd]; ring, ?_, ?_⟩⟩
      · rw [hclamp]
      · rw [hclamp]; norm_num
      · rw [hLast]
      · rw [hT]
    · rw [hfull]
      right
      exact ⟨by rw [hd]; ring, hclamp⟩
    · have hs1 : (updateGraphDriving r s dt).1.currentSegment
          = some (singleSegRoadSegment n1 n2 sid pts L wdt) := by
        rw [hfull]; exact hSeg
      have heff : (if (updateGraphDriving r s dt).1.direction = -1 then
            1 - (updateGraphDriving r s dt).1.segmentProgress
          else (updateGraphDriving r s dt).1.segmentProgress) = 1 := by
        rw [hfull]
        have hdm : s.direction * (-1) = (-1 : ℚ) := by rw [hd]; ring
        simp only [hdm, if_pos rfl, hclamp]
        norm_num
      obtain ⟨lp, hlp, hpos⟩ := samplePosition_effective_one
        (updateGraphDriving r s dt).1 (singleSegRoadSegment n1 n2 sid pts L wdt)
        hs1 hpts heff
      exact ⟨lp, hlp, hpos⟩
  · -- direction −1: the far end node-n1 is reached
    have hdelta : s.speed * 1000 / 3600 / L * dt * s.direction < 0 := by
      rw [hd]
      have := mul_pos hspeedPos hdt
      nlinarith
    have hover : s.segmentProgress + s.speed * 1000 / 3600 / L * dt * s.direction ≤ 0 := by
      rcases htrig with h | h
      · exfalso; nlinarith
      · exact h
    have hdead := handleNodeReached_deadEnd r
      { s with segmentProgress := s.segmentProgress +
          s.speed * 1000 / 3600 / L * dt * s.direction }
      (singleSegNet n1 n2 pos1 pos2 sid pts L wdt idx) (.node n1)
      ⟨.node n1, pos1, [sid]⟩ hNet hT
      (singleSeg_mapGet_n1 n1 n2 pos1 pos2 sid pts L wdt idx)
      (by
        show possibleSegmentsAt s.currentSegmentId ⟨.node n1, pos1, [sid]⟩
          (singleSegNet n1 n2 pos1 pos2 sid pts L wdt idx) = []
        rw [hSid]
        exact possibleSegmentsAt_self sid ⟨.node n1, pos1, [sid]⟩ _ rfl)
    have hclamp : max 0 (min 1 (1 - (s.segmentProgress +
        s.speed * 1000 / 3600 / L * dt * s.direction))) = 1 := by
      have h1 : 1 ≤ 1 - (s.segmentProgress +
          s.speed * 1000 / 3600 / L * dt * s.direction) := by linarith
      rw [min_eq_left h1]
      norm_num
    have hfull : updateGraphDriving r s dt =
        ({ s with direction := s.direction * (-1),
                  segmentProgress := max 0 (min 1 (1 - (s.segmentProgress +
                    s.speed * 1000 / 3600 / L * dt * s.direction))),
                  targetNodeId := s.lastNodeId,
                  lastNodeId := s.targetNodeId }, true) := by
      rw [hupd, hdead]
    refine ⟨hfull, ?_, ?_, ?_⟩
    · rw [hfull]
      refine ⟨hA, hNet, hSeg, hSid, ?_, ?_, Or.inl ⟨by rw [hd]; ring, ?_, ?_⟩⟩
      · rw [hclamp]; norm_num
      · rw [hclamp]
      · rw [hLast]
      · rw [hT]
    · rw [hfull]
      left
      exact ⟨by rw [hd]; ring, hclamp⟩
    · have hs1 : (updateGraphDriving r s dt).1.currentSegment
          = some (singleSegRoadSegment n1 n2 sid pts L wdt) := by
        rw [hfull]; exact hSeg
      have heff : (if (updateGraphDriving r s dt).1.direction = -1 then
            1 - (updateGraphDriving r s dt).1.segmentProgress
          else (updateGraphDriving r s dt).1.segmentProgress) = 1 := by
        rw [hfull]
        have hdm : s.direction * (-1) = (1 : ℚ) := by rw [hd]; ring
        have hne1 : ¬ (s.direction * (-1) = (-1 : ℚ)) := by rw [hdm]; norm_num
        simp only [if_neg hne1, hclamp]
      obtain ⟨lp, hlp, hpos⟩ := samplePosition_effective_one
        (updateGraphDriving r s dt).1 (singleSegRoadSegment n1 n2 sid pts L wdt)
        hs1 hpts heff
      exact ⟨lp, hlp, hpos⟩

/-- Any node found by the retry chain is a node of the network. -/
theorem nearestWithRetries_mem (sqrt : ℚ → ℚ) (pos : Vec3)
    (net : ConnectedRoadNetwork) (nd : RoadNode)
    (h : nearestWithRetries sqrt pos net = some nd) : ∃ k, (k, nd) ∈ net.nodes := by
  unfold nearestWithRetries at h
  cases h1 : findNearestNetworkNode sqrt pos net 100 with
  | some m =>
    rw [h1] at h
    cases h
    exact findNearestNetworkNode_mem sqrt pos net 100 nd h1
  | none =>
    rw [h1] at h
    cases h2 : findNearestNetworkNode sqrt pos net 300 with
    | some m =>
      rw [h2] at h
      cases h
      exact findNearestNetworkNode_mem sqrt pos net 300 nd h2
    | none =>
      rw [h2] at h
      exact findNearestNetworkNode_mem sqrt pos net 1000 nd h

/-- Starting on the single-segment network, when it reports success, puts the
machine in a valid traversal state at one endpoint with progress 0 and an
unchanged speed. -/
theorem singleSeg_start (n1 n2 : Nat) (pos1 pos2 : Vec3) (sid : SegId)
    (pts : List Vec3) (L wdt : ℚ) (idx : List ((ℤ × ℤ) × NodeId)) (hne : n1 ≠ n2)
    (sqrt : ℚ → ℚ) (s0 : GraphDrivingState) (pos : Vec3) (s' : GraphDrivingState)
    (hA0 : s0.isActive = false)
    (h : startGraphDriving sqrt s0 pos (singleSegNet n1 n2 pos1 pos2 sid pts L wdt idx)
      = (s', StartOutcome.started)) :
    ValidTraversal n1 n2 pos1 pos2 sid pts L wdt idx s' ∧
    s'.segmentProgress = 0 ∧ s'.speed = s0.speed := by
  have hempty : (singleSegNet n1 n2 pos1 pos2 sid pts L wdt idx).segments.isEmpty
      = false := rfl
  cases hc : nearestWithRetries sqrt pos (singleSegNet n1 n2 pos1 pos2 sid pts L wdt idx)
    with
  | none =>
    simp only [startGraphDriving, hA0, hempty, Bool.false_eq_true, if_false] at h
    rw [hc] at h
    exact absurd (congrArg Prod.snd h) (by simp)
  | some nd =>
    obtain ⟨k, hk⟩ := nearestWithRetries_mem sqrt pos _ nd hc
    have hnd : nd = ⟨.node n1, pos1, [sid]⟩ ∨ nd = ⟨.node n2, pos2, [sid]⟩ := by
      simp only [singleSegNet, List.mem_cons, List.mem_singleton] at hk
      rcases hk with hk | hk | hk
      · exact Or.inl (congrArg Prod.snd hk)
      · exact Or.inr (congrArg Prod.snd hk)
      · exact absurd hk (List.not_mem_nil _)
    rcases hnd with hnd | hnd <;> subst hnd
    · -- seed at node-n1: direction +1 toward node-n2
      simp only [startGraphDriving, hA0, hempty, Bool.false_eq_true, if_false] at h
      rw [hc] at h
      simp only [singleSegNet, singleSegRoadSegment, mapGet, List.isEmpty_cons,
        List.head?_cons, Bool.false_eq_true, if_false, eq_self_iff_true, if_true] at h
      have hs' : s' = { s0 with
          network := some (singleSegNet n1 n2 pos1 pos2 sid pts L wdt idx),
          isActive := true,
          currentSegment := some (singleSegRoadSegment n1 n2 sid pts L wdt),
          currentSegmentId := some sid,
          direction := 1,
          targetNodeId := some (.node n2),
          lastNodeId := some (.node n1),
          segmentProgress := 0 } := by
        have := congrArg Prod.fst h
        simp only at this
        rw [← this]
        rfl
      subst hs'
      exact ⟨⟨rfl, rfl, rfl, rfl, le_refl 0, by norm_num, Or.inl ⟨rfl, rfl, rfl⟩⟩,
        rfl, rfl⟩
    · -- seed at node-n2: direction −1 toward node-n1
      have hne' : NodeId.node n1 ≠ NodeId.node n2 := by
        intro hcontra
        exact hne (NodeId.node.inj hcontra)
      simp only [startGraphDriving, hA0, hempty, Bool.false_eq_true, if_false] at h
      rw [hc] at h
      simp only [singleSegNet, singleSegRoadSegment, mapGet, List.isEmpty_cons,
        List.head?_cons, Bool.false_eq_true, if_false, eq_self_iff_true, if_true,
        if_neg hne'] at h
      have hs' : s' = { s0 with
          network := some (singleSegNet n1 n2 pos1 pos2 sid pts L wdt idx),
          isActive := true,
          currentSegment := some (singleSegRoadSegment n1 n2 sid pts L wdt),
          currentSegmentId := some sid,
          direction := -1,
          targetNodeId := some (.node n1),
          lastNodeId := some (.node n2),
          segmentProgress := 0 } := by
        have := congrArg Prod.fst h
        simp only at this
        rw [← this]
        rfl
      subst hs'
      exact ⟨⟨rfl, rfl, rfl, rfl, le_refl 0, by norm_num, Or.inr ⟨rfl, rfl, rfl⟩⟩,
        rfl, rfl⟩

/-- C1: on a Network consisting of a single Segment (two Nodes, each with
exactly one connected Segment): (i) a successful start puts the machine at
one endpoint of the Segment with progress 0 in a valid traversal state;
(ii) ticks that keep the progress strictly inside (0, 1) stay in the valid
traversal states without a node transition; (iii) the tick that reaches the
far end flips `direction`, swaps `targetNodeId` and `originNodeId`, resets
the progress to 1 − progress clamped to [0, 1], stays Traversing (active, on
the same Segment), and the sampled position at the transition tick equals the
sampled position at the following tick — for every such Network, positive
speed and tick size (so the positions are within every epsilon). -/
theorem C1_dead_end_reversal (n1 n2 : Nat) (pos1 pos2 : Vec3) (sid : SegId)
    (pts : List Vec3) (L wdt : ℚ) (idx : List ((ℤ × ℤ) × NodeId))
    (hne : n1 ≠ n2) (hL : 0 < L) (hpts : 2 ≤ pts.length) :
    (∀ (sqrt : ℚ → ℚ) (s0 : GraphDrivingState) (pos : Vec3) (s' : GraphDrivingState),
      s0.isActive = false →
      startGraphDriving sqrt s0 pos (singleSegNet n1 n2 pos1 pos2 sid pts L wdt idx)
        = (s', StartOutcome.started) →
      ValidTraversal n1 n2 pos1 pos2 sid pts L wdt idx s' ∧
      s'.segmentProgress = 0 ∧ s'.speed = s0.speed) ∧
    (∀ (s : GraphDrivingState) (dt r : ℚ),
      ValidTraversal n1 n2 pos1 pos2 sid pts L wdt idx s →
      ¬ (1 ≤ s.segmentProgress + s.speed * 1000 / 3600 / L * dt * s.direction ∨
         s.segmentProgress + s.speed * 1000 / 3600 / L * dt * s.direction ≤ 0) →
      updateGraphDriving r s dt =
        ({ s with segmentProgress := s.segmentProgress +
            s.speed * 1000 / 3600 / L * dt * s.direction }, false) ∧
      ValidTraversal n1 n2 pos1 pos2 sid pts L wdt idx
        { s with segmentProgress := s.segmentProgress +
            s.speed * 1000 / 3600 / L * dt * s.direction }) ∧
    (∀ (s : GraphDrivingState) (dt dt' r r' : ℚ),
      ValidTraversal n1 n2 pos1 pos2 sid pts L wdt idx s →
      0 < s.speed → 0 < dt → 0 < dt' →
      (1 ≤ s.segmentProgress + s.speed * 1000 / 3600 / L * dt * s.direction ∨
        s.segmentProgress + s.speed * 1000 / 3600 / L * dt * s.direction ≤ 0) →
      (updateGraphDriving r s dt).2 = true ∧
      (updateGraphDriving r s dt).1.direction = -s.direction ∧
      (updateGraphDriving r s dt).1.targetNodeId = s.lastNodeId ∧
      (updateGraphDriving r s dt).1.lastNodeId = s.targetNodeId ∧
      (updateGraphDriving r s dt).1.segmentProgress =
        max 0 (min 1 (1 - (s.segmentProgress +
          s.speed * 1000 / 3600 / L * dt * s.direction))) ∧
      (updateGraphDriving r s dt).1.isActive = true ∧
      (updateGraphDriving r s dt).1.currentSegment = s.currentSegment ∧
      (updateGraphDriving r s dt).1.currentSegmentId = s.currentSegmentId ∧
      samplePosition (updateGraphDriving r s dt).1 =
        samplePosition (updateGraphDriving r' (updateGraphDriving r s dt).1 dt').1) := by
  refine ⟨?_, ?_, ?_⟩
  · -- (i) successful start
    intro sqrt s0 pos s' hA0 h
    exact singleSeg_start n1 n2 pos1 pos2 sid pts L wdt idx hne sqrt s0 pos s' hA0 h
  · -- (ii) no transition while the progress stays inside (0, 1)
    intro s dt r hv hno
    obtain ⟨hA, hNet, hSeg, hSid, hp0, hp1, hdir⟩ := hv
    have hno2 : ¬ (1 ≤ s.segmentProgress + s.speed * 1000 / 3600 /
        (singleSegRoadSegment n1 n2 sid pts L wdt).length * dt * s.direction ∨
        s.segmentProgress + s.speed * 1000 / 3600 /
        (singleSegRoadSegment n1 n2 sid pts L wdt).length * dt * s.direction ≤ 0) := hno
    have hrun : updateGraphDriving r s dt =
        ({ s with segmentProgress := s.segmentProgress +
            s.speed * 1000 / 3600 / L * dt * s.direction }, false) := by
      simp only [updateGraphDriving, hA, hSeg, hNet]
      rw [if_neg hno2]
      rfl
    have hn := not_or.mp hno
    exact ⟨hrun, hA, hNet, hSeg, hSid, le_of_lt (not_le.mp hn.2),
      le_of_lt (not_le.mp hn.1), hdir⟩
  · -- (iii) the transition tick and the continuity of the sampled position
    intro s dt dt' r r' hv hsp hdt hdt' htrig
    obtain ⟨hfull, hv1, hbd, lp, hlp, hpos⟩ := singleSeg_transition n1 n2 pos1 pos2 sid
      pts L wdt idx hne hL hpts s dt r hv hsp hdt htrig
    have hspeed1 : (updateGraphDriving r s dt).1.speed = s.speed := by
      rw [hfull]
    have hsp1 : 0 < (updateGraphDriving r s dt).1.speed := by
      rw [hspeed1]; exact hsp
    have hspeedPos : 0 < (updateGraphDriving r s dt).1.speed * 1000 / 3600 / L := by
      apply div_pos _ hL
      positivity
    have htrig1 : 1 ≤ (updateGraphDriving r s dt).1.segmentProgress +
        (updateGraphDriving r s dt).1.speed * 1000 / 3600 / L * dt' *
          (updateGraphDriving r s dt).1.direction ∨
        (updateGraphDriving r s dt).1.segmentProgress +
        (updateGraphDriving r s dt).1.speed * 1000 / 3600 / L * dt' *
          (updateGraphDriving r s dt).1.direction ≤ 0 := by
      rcases hbd with ⟨hd1, hp1'⟩ | ⟨hd1, hp1'⟩
      · left
        rw [hd1, hp1', mul_one]
        nlinarith
      · right
        rw [hd1, hp1']
        nlinarith
    obtain ⟨hfull2, hv2, hbd2, lp', hlp', hpos'⟩ := singleSeg_transition n1 n2 pos1 pos2
      sid pts L wdt idx hne hL hpts (updateGraphDriving r s dt).1 dt' r' hv1 hsp1 hdt'
      htrig1
    have hlpeq : lp = lp' := by
      rw [hlp] at hlp'
      exact Option.some.inj hlp'
    refine ⟨?_, ?_, ?_, ?_, ?_, ?_, ?_, ?_, ?_⟩
    · rw [hfull]
    · rw [hfull]; ring
    · rw [hfull]
    · rw [hfull]
    · rw [hfull]
    · rw [hfull]
      obtain ⟨hA, _, _, _, _, _, _⟩ := hv
      exact hA
    · rw [hfull]
    · rw [hfull]
    · rw [hpos, hpos', hlpeq]

/-- Concrete transition-tick state for the C1 witness: a 10-unit segment at
36 km/h, progress 1/2, one further second of driving crosses the far end. -/
def c1State : GraphDrivingState :=
  { isActive := true, speed := 36,
    network := some (singleSegNet 1 2 ⟨0, 0, 0⟩ ⟨10, 0, 0⟩ ⟨1, 0⟩
      [⟨0, 0, 0⟩, ⟨10, 0, 0⟩] 10 10 []),
    currentSegment := some (singleSegRoadSegment 1 2 ⟨1, 0⟩
      [⟨0, 0, 0⟩, ⟨10, 0, 0⟩] 10 10),
    currentSegmentId := some ⟨1, 0⟩, segmentProgress := 1/2, direction := 1,
    targetNodeId := some (.node 2), lastNodeId := some (.node 1) }

/-- Witness for C1 instantiating the transition-tick part on the concrete
single-segment network. -/
theorem C1_dead_end_reversal_witness :
    (updateGraphDriving 0 c1State 1).2 = true ∧
    (updateGraphDriving 0 c1State 1).1.direction = -c1State.direction ∧
    (updateGraphDriving 0 c1State 1).1.targetNodeId = c1State.lastNodeId ∧
    (updateGraphDriving 0 c1State 1).1.lastNodeId = c1State.targetNodeId ∧
    (updateGraphDriving 0 c1State 1).1.segmentProgress =
      max 0 (min 1 (1 - (c1State.segmentProgress +
        c1State.speed * 1000 / 3600 / 10 * 1 * c1State.direction))) ∧
    (updateGraphDriving 0 c1State 1).1.isActive = true ∧
    (updateGraphDriving 0 c1State 1).1.currentSegment = c1State.currentSegment ∧
    (updateGraphDriving 0 c1State 1).1.currentSegmentId = c1State.currentSegmentId ∧
    samplePosition (updateGraphDriving 0 c1State 1).1 =
      samplePosition (updateGraphDriving 0 (updateGraphDriving 0 c1State 1).1 1).1 :=
  (C1_dead_end_reversal 1 2 ⟨0, 0, 0⟩ ⟨10, 0, 0⟩ ⟨1, 0⟩ [⟨0, 0, 0⟩, ⟨10, 0, 0⟩] 10 10 []
    (by decide) (by norm_num) (by decide)).2.2 c1State 1 1 0 0
    ⟨rfl, rfl, rfl, rfl, by norm_num [c1State], by norm_num [c1State],
      Or.inl ⟨rfl, rfl, rfl⟩⟩
    (by norm_num [c1State]) (by norm_num) (by norm_num)
    (Or.inl (by norm_num [c1State]))
